/-
Verification of the thinkdrop-backend provider-fallback dispatch engine and
element caching/matching pipeline.

Shallow embedding of the TypeScript source:
  * `src/utils/llmRouter.ts`           — non-streaming LLMRouter.processPrompt
  * `src/utils/llmStreamingRouter.ts`  — LLMStreamingRouter.processPromptWithStreaming
  * `src/services/omniParserWarmup.ts` — warmup coordinator
  * `src/services/omniParserService.ts`— element cache and icon+text merge pass
  * `src/services/llmElementMatcher.ts`— LLM-based element resolution

External collaborators (provider network calls, the Redis store's clock,
JSON.parse, wall-clock time) are modelled as explicit oracles/parameters;
everything the repository's own code computes is embedded directly.
Numbers that are JS floats in the source are modelled as rationals; all the
constants involved (0.5, 0.08, 0.06, 0.02, bbox inputs) are exactly
representable in both, and no arithmetic in the modelled code can introduce
a rounding disagreement at the comparisons performed.
-/
import Mathlib

namespace Thinkdrop

/-! ### Token usage record (streaming.ts `tokenUsage`) -/

structure TokenUsage where
  promptTokens : Nat
  completionTokens : Nat
  totalTokens : Nat
deriving DecidableEq, Repr

def zeroUsage : TokenUsage := ⟨0, 0, 0⟩

/-! ### Non-streaming router — `llmRouter.ts` (`LLMRouter.processPrompt`)

The per-provider methods (`callOpenAI`, `callClaude`, …) each first check a
process-environment credential and throw `'<KEY> not set'` when it is absent,
before constructing any client or issuing any HTTP/SDK call; with the key
present the network interaction is an external collaborator, modelled by the
oracle `net : String → Except String String` (response text or thrown error).
`env : String → Bool` models which environment variables are set.
`callProvider` additionally reports whether the network was reached
(instrumentation used to state the no-network-attempt property). -/

/-- The fixed priority list in `processPrompt`. -/
def llmProviders : List String := ["openai", "claude", "gemini", "mistral", "deepseek"]

/-- Which environment variable each provider's call checks before any network
call (`callOpenAI` … `callDeepseek`); `none` for unknown providers, whose
dispatch throws `Unknown provider` in `callProvider` without any check. -/
def credentialEnvVar (p : String) : Option String :=
  if p = "openai" then some "OPENAI_API_KEY"
  else if p = "claude" then some "ANTHROPIC_API_KEY"
  else if p = "gemini" then some "GEMINI_API_KEY"
  else if p = "mistral" then some "MISTRAL_API_KEY"
  else if p = "deepseek" then some "DEEPSEEK_API_KEY"
  else none

/-- `LLMRouter.callProvider` followed by the provider-specific method: unknown
provider throws; a missing credential throws locally; otherwise the network
oracle decides. First component: whether a network request was issued. -/
def callProvider (env : String → Bool) (net : String → Except String String)
    (p : String) : Bool × Except String String :=
  match credentialEnvVar p with
  | none => (false, .error ("Unknown provider: " ++ p))
  | some k =>
      if env k then (true, net p)
      else (false, .error (k ++ " not set"))

/-- The attempt order built in `processPrompt`:
`preferred ? [preferred, ...providers.filter(p => p !== preferred)] : providers`. -/
def orderProviders (preferred : Option String) (providers : List String) : List String :=
  match preferred with
  | some p => p :: providers.filter (fun q => q ≠ p)
  | none => providers

/-- The `for (const provider of ordered)` loop of `processPrompt`: try each
provider, return at the first call that completes without throwing.
Also returns the list of attempted providers, each paired with whether the
attempt reached the network (instrumentation). -/
def tryProviders (env : String → Bool) (net : String → Except String String) :
    List String → List (String × Bool) × Option (String × String)
  | [] => ([], none)
  | p :: rest =>
      let (netUsed, r) := callProvider env net p
      match r with
      | .ok t => ([(p, netUsed)], some (p, t))
      | .error _ =>
          let (att, res) := tryProviders env net rest
          ((p, netUsed) :: att, res)

structure LLMRouterResult where
  text : String
  provider : String
deriving DecidableEq, Repr

/-- `LLMRouter.processPrompt` (elapsed-time field omitted: wall clock is
external and no claim concerns it). Returns the attempts trace alongside the
thrown-or-returned outcome. -/
def processPrompt (env : String → Bool) (net : String → Except String String)
    (preferred : Option String) : List (String × Bool) × Except String LLMRouterResult :=
  let ordered := orderProviders preferred llmProviders
  let (attempts, res) := tryProviders env net ordered
  match res with
  | some (p, t) => (attempts, .ok ⟨t, p⟩)
  | none => (attempts, .error "[LLMRouter] All providers failed")

/-! ### Streaming router — `llmStreamingRouter.ts`
(`LLMStreamingRouter.processPromptWithStreaming`)

Each `call<Provider>WithStreaming` method checks its credential env var and
throws `'<KEY> not configured'` before any network call; with the key present
the provider stream is external, modelled by `snet : String → StreamNet`:
the incremental text fragments delivered (each forwarded through `onChunk`
before any failure can surface) and the final outcome (token usage on
success, a thrown error otherwise).  `fullText` is the concatenation of the
delivered fragments, exactly as each method accumulates it. -/

structure LLMStreamChunk where
  text : String
  provider : String
deriving DecidableEq, Repr

structure FallbackRecord where
  provider : String
  success : Bool
  error : Option String
  latencyMs : Nat
deriving DecidableEq, Repr

/-- `LLMStreamResult` from `types/streaming.ts` (processing time omitted:
wall clock is external). `fallbackChain` is the optional trace field. -/
structure LLMStreamResult where
  fullText : String
  provider : String
  tokenUsage : TokenUsage
  fallbackChain : Option (List FallbackRecord)
deriving DecidableEq, Repr

/-- Events delivered to the `onChunk` callback of
`processPromptWithStreaming`: `llm_stream_start`, `llm_stream_chunk`,
`llm_stream_end`, `llm_error`. -/
inductive StreamEvent where
  | start : StreamEvent
  | chunk (c : LLMStreamChunk) : StreamEvent
  | endEv (r : LLMStreamResult) : StreamEvent
  | errorEv (msg : String) : StreamEvent
deriving DecidableEq, Repr

/-- The fixed `fallbackChain` provider list inside
`processPromptWithStreaming`. -/
def streamProviders : List String :=
  ["openai", "claude", "gemini", "mistral", "deepseek", "grok", "lambda"]

/-- Credential env var checked by each `call<Provider>WithStreaming` method. -/
def streamCredVar (p : String) : Option String :=
  if p = "claude" then some "ANTHROPIC_API_KEY"
  else if p = "openai" then some "OPENAI_API_KEY"
  else if p = "grok" then some "GROK_API_KEY"
  else if p = "gemini" then some "GEMINI_API_KEY"
  else if p = "mistral" then some "MISTRAL_API_KEY"
  else if p = "deepseek" then some "DEEPSEEK_API_KEY"
  else if p = "lambda" then some "LAMBDA_AI"
  else none

/-- Behaviour of one provider's external stream: the text fragments it
delivers, then either the reported token usage (success) or a thrown error. -/
structure StreamNet where
  chunks : List String
  outcome : Except String TokenUsage

/-- `callProviderWithStreaming`: unknown provider throws; missing credential
throws locally; otherwise the fragments are forwarded as chunk callbacks and
the method returns `{ fullText, provider, tokenUsage }` — note that no
`fallbackChain` field is ever assigned, so it is `none`.  First component:
whether the network was reached. -/
def callProviderWithStreaming (env : String → Bool) (snet : String → StreamNet)
    (p : String) : Bool × List LLMStreamChunk × Except String LLMStreamResult :=
  match streamCredVar p with
  | none => (false, [], .error ("Unknown provider: " ++ p))
  | some k =>
      if env k then
        let o := snet p
        let emitted := o.chunks.map (fun t => LLMStreamChunk.mk t p)
        match o.outcome with
        | .ok usage => (true, emitted, .ok ⟨String.join o.chunks, p, usage, none⟩)
        | .error e => (true, emitted, .error e)
      else (false, [], .error (k ++ " not configured"))

/-- One invocation of `processPromptWithStreaming`: everything the `onChunk`
callback received, the providers attempted (with network-reached flags), and
the returned-or-thrown outcome. -/
structure StreamRun where
  events : List StreamEvent
  attempts : List (String × Bool)
  result : Except String LLMStreamResult
deriving Repr

/-- The `for (const provider of fallbackChain)` loop: skip the preferred
provider, attempt the rest in order, stop at the first success. -/
def streamFallbackLoop (env : String → Bool) (snet : String → StreamNet)
    (preferred : Option String) :
    List String → List StreamEvent → List (String × Bool) →
    List StreamEvent × List (String × Bool) × Option LLMStreamResult
  | [], ev, att => (ev, att, none)
  | p :: rest, ev, att =>
      if preferred = some p then streamFallbackLoop env snet preferred rest ev att
      else
        let (netUsed, emitted, r) := callProviderWithStreaming env snet p
        match r with
        | .ok res => (ev ++ emitted.map StreamEvent.chunk, att ++ [(p, netUsed)], some res)
        | .error _ =>
            streamFallbackLoop env snet preferred rest
              (ev ++ emitted.map StreamEvent.chunk) (att ++ [(p, netUsed)])

def allStreamFailedMsg : String := "All LLM providers failed for streaming request"

/-- `LLMStreamingRouter.processPromptWithStreaming`: emit the start event, try
the preferred provider (its failure is caught and logged), run the fallback
loop if needed, then emit the end event and return the result — or emit the
error event and rethrow when every provider failed. -/
def processPromptWithStreaming (env : String → Bool) (snet : String → StreamNet)
    (preferred : Option String) : StreamRun :=
  let ev0 : List StreamEvent := [.start]
  let (ev1, att1, res1) :=
    match preferred with
    | none => (ev0, ([] : List (String × Bool)), (none : Option LLMStreamResult))
    | some p =>
        let (netUsed, emitted, r) := callProviderWithStreaming env snet p
        (ev0 ++ emitted.map StreamEvent.chunk, [(p, netUsed)], r.toOption)
  let (ev2, att2, res2) :=
    match res1 with
    | some r => (ev1, att1, some r)
    | none => streamFallbackLoop env snet preferred streamProviders ev1 att1
  match res2 with
  | some r => ⟨ev2 ++ [.endEv r], att2, .ok r⟩
  | none => ⟨ev2 ++ [.errorEv allStreamFailedMsg], att2, .error allStreamFailedMsg⟩

/-! ### Warmup coordinator — `omniParserWarmup.ts`

Module state: `lastWarmupTime`, `warmupCount`, `inFlightWarmup` (the promise
deduplicating concurrent warmups), plus whether `replicateClient` was
constructed (which requires both `REPLICATE_API_TOKEN` and
`OMNIPARSER_WARMUP_ENABLED=true`).  In `warmup()`, the counter increment and
the `inFlightWarmup` assignment happen synchronously before the first await
point of the async IIFE, so between a call that starts a warmup and the
completion of the external ping, every other caller observes
`inFlightWarmup` non-null.  We model warmup handles by the warmup number the
caller awaits; the external ping itself is instrumented as a Boolean
"a new ping was issued by this call". -/

def WARMUP_INTERVAL_MS : Int := 3 * 60 * 1000
def WARM_TTL_MS : Int := 4 * 60 * 1000

structure WarmupState where
  /-- `replicateClient !== null`, i.e. token present and warmup enabled. -/
  clientConfigured : Bool
  /-- `lastWarmupTime` in ms; `0` means "never" (falsy in the source). -/
  lastWarmupTime : Int
  /-- `warmupCount`. -/
  warmupCount : Nat
  /-- `inFlightWarmup`, identified by its warmup number. -/
  inFlight : Option Nat
deriving DecidableEq, Repr

/-- State at process start (module initialisation). -/
def initialWarmupState (configured : Bool) : WarmupState :=
  ⟨configured, 0, 0, none⟩

/-- `warmup()` up to its first suspension point: returns the new state, the
handle the caller awaits (`none` when the service is not initialised and the
method returns immediately), and whether this call issued a new external
ping. -/
def warmup (s : WarmupState) : WarmupState × Option Nat × Bool :=
  if ¬ s.clientConfigured then (s, none, false)
  else
    match s.inFlight with
    | some h => (s, some h, false)
    | none =>
        let n := s.warmupCount + 1
        ({ s with warmupCount := n, inFlight := some n }, some n, true)

/-- Completion of the in-flight ping at time `now` (the body of the async
IIFE after the external call returns): on success `lastWarmupTime` is set,
and in every case `inFlightWarmup` is cleared in the `finally` block. -/
def completeWarmup (s : WarmupState) (now : Int) (success : Bool) : WarmupState :=
  { s with lastWarmupTime := if success then now else s.lastWarmupTime
           inFlight := none }

/-- `isWarm()` at time `now`. -/
def isWarm (s : WarmupState) (now : Int) : Bool :=
  if ¬ s.clientConfigured then false
  else if s.inFlight.isSome then true
  else if s.lastWarmupTime = 0 then false
  else now - s.lastWarmupTime < WARM_TTL_MS

/-- `ensureWarm()` at time `now`: trigger a warmup only when cold.  Returns
(new state, whether this call issued a new external ping, `wasWarm`). -/
def ensureWarm (s : WarmupState) (now : Int) : WarmupState × Bool × Bool :=
  if isWarm s now then (s, false, true)
  else
    let (s', _, ping) := warmup s
    (s', ping, false)

/-- `n` back-to-back `ensureWarm()` calls at time `now` with no completion
event in between (the concurrent-callers scenario: all arrive while the
external ping, if any, is still outstanding).  Returns the final state and
the number of external pings issued. -/
def ensureWarmN : Nat → WarmupState → Int → WarmupState × Nat
  | 0, s, _ => (s, 0)
  | n + 1, s, now =>
      let (s', ping, _) := ensureWarm s now
      let (s'', k) := ensureWarmN n s' now
      (s'', (if ping then 1 else 0) + k)

/-! ### Element data model — `ParsedElement` (omniParserService.ts /
llmElementMatcher.ts, identical interfaces) -/

inductive ElemType where
  | text : ElemType
  | icon : ElemType
deriving DecidableEq, Repr

structure BBox where
  x1 : ℚ
  y1 : ℚ
  x2 : ℚ
  y2 : ℚ
deriving DecidableEq, Repr

/-- Normalized `[x1, y1, x2, y2]` bounding box. -/
structure NBox where
  x1 : ℚ
  y1 : ℚ
  x2 : ℚ
  y2 : ℚ
deriving DecidableEq, Repr

structure ParsedElement where
  id : Int
  type : ElemType
  bbox : BBox
  normalizedBbox : NBox
  interactivity : Bool
  content : String
  confidence : ℚ
deriving DecidableEq, Repr

/-! ### Element cache — `omniParserService.ts`
(`getFromCache` / `saveToCache` / `getCacheKey`)

The Redis backing store is an external keyed collaborator with per-key TTL
(`setex`); we model it as an association list key ↦ (value, expiry instant),
where a read at `now` sees the entry iff `now` is before the expiry instant.
`JSON.stringify`/`JSON.parse` round-trip of the plain-data `CachedElements`
record is the identity, so the store holds the records directly. -/

structure WindowBounds where
  x : ℚ
  y : ℚ
  width : ℚ
  height : ℚ
deriving DecidableEq, Repr

structure CachedElements where
  elements : List ParsedElement
  timestamp : Int
  url : Option String
  screenshotHash : String
  screenshotWidth : ℚ
  screenshotHeight : ℚ
  windowBounds : Option WindowBounds
deriving DecidableEq, Repr

/-- `CACHE_TTL_SECONDS = 3 * 24 * 60 * 60`. -/
def CACHE_TTL_SECONDS : Int := 3 * 24 * 60 * 60

structure RedisEntry where
  value : CachedElements
  expiresAtMs : Int
deriving DecidableEq, Repr

def RedisStore := List (String × RedisEntry)

/-- Redis GET at time `now`: the entry if present and not yet expired. -/
def redisGet (store : RedisStore) (now : Int) (key : String) : Option CachedElements :=
  match List.lookup key store with
  | none => none
  | some e => if now < e.expiresAtMs then some e.value else none

/-- Redis SETEX at time `now` with a TTL in seconds: unconditional overwrite. -/
def redisSetex (store : RedisStore) (now : Int) (key : String) (ttlSeconds : Int)
    (v : CachedElements) : RedisStore :=
  (key, ⟨v, now + ttlSeconds * 1000⟩) :: store.filter (fun kv => kv.1 ≠ key)

/-- Redis DEL. -/
def redisDel (store : RedisStore) (key : String) : RedisStore :=
  store.filter (fun kv => kv.1 ≠ key)

/-- `getCacheKey(url, screenshotHash)`. -/
def getCacheKey (url : String) (screenshotHash : String) : String :=
  "omniparser" ++ ":" ++ url ++ ":" ++ screenshotHash

/-- `getFromCache` at time `now` (`Date.now()`): no store configured means a
silent miss; a stale entry (age strictly beyond the TTL) is deleted and
treated as a miss.  Returns the read result and the possibly updated store. -/
def getFromCache (redis : Option RedisStore) (now : Int) (cacheKey : String) :
    Option CachedElements × Option RedisStore :=
  match redis with
  | none => (none, none)
  | some store =>
      match redisGet store now cacheKey with
      | none => (none, some store)
      | some data =>
          if now - data.timestamp > CACHE_TTL_SECONDS * 1000 then
            (none, some (redisDel store cacheKey))
          else
            (some data, some store)

/-- `saveToCache` at time `now`: `redis.setex(cacheKey, CACHE_TTL_SECONDS, …)`;
no store configured means a silent no-op. -/
def saveToCache (redis : Option RedisStore) (now : Int) (cacheKey : String)
    (data : CachedElements) : Option RedisStore :=
  match redis with
  | none => none
  | some store => some (redisSetex store now cacheKey CACHE_TTL_SECONDS data)

/-! ### Icon+label merge pass — `omniParserService.ts` (`mergeIconTextPairs`)

The source mutates `icon.content` through object identity and collects
consumed label ids in a `Set`; we model the mutations as an index-keyed
update list over the original `elements` array and the set as a list of ids.
JS string `.trim()`, `.toLowerCase()` and `.length` agree with Lean's
`String.trim`, `String.toLower` and `String.length` on the ASCII data
involved. -/

/-- JS `String.prototype.toLowerCase()` on the ASCII data involved
(equivalent to `String.toLower`, stated over the character list so that
concrete instances evaluate). -/
def lowerStr (s : String) : String := String.mk (s.data.map Char.toLower)

/-- JS `String.prototype.trim()` on the ASCII data involved (equivalent to
`String.trim`, stated over the character list so that concrete instances
evaluate). -/
def trimStr (s : String) : String :=
  String.mk (((s.data.dropWhile Char.isWhitespace).reverse.dropWhile
    Char.isWhitespace).reverse)

/-- The alternatives of the `GENERIC_ICON_CONTENT` regex
(`^(…)$` with the `i` flag: whole-string, case-insensitive). -/
def genericIconPhrases : List String :=
  ["unanswerable", "a folder.", "a file folder.", "a bookmark.", "an arrow",
   "a loading screen", "a symbol", "a stop button", "the number",
   "the \"not\" function", "the power button", "the time or date",
   "the \"refresh\" function", "adding a new", "image blank", "remote",
   "a text box", "a user profile", "a low profile", "the option to close",
   "the 3-point view", "a tool for writing"]

/-- `GENERIC_ICON_CONTENT.test(s)`. -/
def genericIconContentTest (s : String) : Bool :=
  genericIconPhrases.contains (lowerStr s)

/-- Weekday/month alternatives of the `NOISE_TEXT` regex. -/
def weekMonthWords : List String :=
  ["mon", "tue", "wed", "thu", "fri", "sat", "sun",
   "jan", "feb", "mar", "apr", "may", "jun", "jul", "aug", "sep", "oct",
   "nov", "dec"]

/-- Single punctuation/bracket alternatives of `NOISE_TEXT`. -/
def noiseSymbols : List String :=
  ["[", "]", "\x7b", "\x7d", ">", "<", "/", "\\", "|"]

/-- Optional trailing `(am|pm)?` of the clock-time alternative
(on an already lowercased string). -/
def clockSuffix : List Char → Bool
  | [] => true
  | ['a', 'm'] => true
  | ['p', 'm'] => true
  | _ => false

/-- The `\d{1,2}:\d{2}(am|pm)?` alternative of `NOISE_TEXT`
(on an already lowercased string). -/
def isClockTime (s : String) : Bool :=
  match s.data with
  | a :: ':' :: c :: d :: rest =>
      a.isDigit && c.isDigit && d.isDigit && clockSuffix rest
  | a :: b :: ':' :: c :: d :: rest =>
      a.isDigit && b.isDigit && c.isDigit && d.isDigit && clockSuffix rest
  | _ => false

/-- `NOISE_TEXT.test(s)`: whole-string, case-insensitive match of
clock times, weekday/month abbreviations, bare digit runs, or single
bracket/punctuation tokens. -/
def isNoiseText (s : String) : Bool :=
  let l := lowerStr s
  isClockTime l || weekMonthWords.contains l ||
    (decide (s ≠ "") && s.data.all Char.isDigit) || noiseSymbols.contains s

/-- Horizontal center of a normalized bbox. -/
def centerX (e : ParsedElement) : ℚ :=
  (e.normalizedBbox.x1 + e.normalizedBbox.x2) / 2

/-- The candidate filter in `mergeIconTextPairs`: unconsumed, non-noise text
of length ≥ 2, horizontally within 8% of the icon center, starting between
2% above and 6% below the icon's bottom edge. -/
def labelCandidate (consumed : List Int) (iconCx iconBottom : ℚ)
    (t : ParsedElement) : Bool :=
  if consumed.contains t.id then false
  else
    let label := trimStr t.content
    if isNoiseText label then false
    else if label.length < 2 then false
    else
      let tCx := centerX t
      let tTop := t.normalizedBbox.y1
      let dx := |tCx - iconCx|
      let dy := tTop - iconBottom
      decide (dx ≤ 8 / 100) && decide (dy ≥ -(2 / 100)) && decide (dy ≤ 6 / 100)

/-- Stable insertion (earlier elements stay ahead of later ones with the same
key), modelling the stable JS `Array.prototype.sort` with comparator
`(a, b) => key(a) - key(b)`. -/
def insertByKey (key : α → ℚ) (x : α) : List α → List α
  | [] => [x]
  | y :: ys => if key x ≤ key y then x :: y :: ys else y :: insertByKey key x ys

/-- Stable sort by a rational key. -/
def sortByKey (key : α → ℚ) : List α → List α
  | [] => []
  | x :: xs => insertByKey key x (sortByKey key xs)

/-- `candidates.sort(…)[0]` for one icon: the unconsumed text label closest
in horizontal center distance, if any candidate exists. -/
def bestLabelFor (texts : List ParsedElement) (consumed : List Int)
    (icon : ParsedElement) : Option ParsedElement :=
  let iconCx := centerX icon
  let iconBottom := icon.normalizedBbox.y2
  let candidates := texts.filter (labelCandidate consumed iconCx iconBottom)
  (sortByKey (fun t => |centerX t - iconCx|) candidates).head?

/-- `List.enum` with explicit start, used to key updates by the element's
position in the original array (JS mutation is per object, not per id). -/
def enumFrom : Nat → List α → List (Nat × α)
  | _, [] => []
  | n, x :: xs => (n, x) :: enumFrom (n + 1) xs

/-- The `for (const icon of icons)` loop: skip icons whose own content is
neither generic nor shorter than 4 characters; otherwise consume the best
label candidate (if any) and overwrite the icon's content with the label's
trimmed text.  Accumulates position-keyed content updates and consumed ids. -/
def iconMergeFold (texts : List ParsedElement) :
    List (Nat × ParsedElement) → List Int → List (Nat × String) →
    List (Nat × String) × List Int
  | [], consumed, updates => (updates, consumed)
  | (i, icon) :: rest, consumed, updates =>
      let iconContent := trimStr icon.content
      if ¬ genericIconContentTest iconContent ∧ iconContent.length ≥ 4 then
        iconMergeFold texts rest consumed updates
      else
        match bestLabelFor texts consumed icon with
        | none => iconMergeFold texts rest consumed updates
        | some best =>
            iconMergeFold texts rest (best.id :: consumed)
              ((i, trimStr best.content) :: updates)

/-- Apply the collected `icon.content = textLabel` mutations to the original
array. -/
def applyUpdates (elements : List ParsedElement) (updates : List (Nat × String)) :
    List ParsedElement :=
  (enumFrom 0 elements).map (fun p =>
    match updates.lookup p.1 with
    | some c => { p.2 with content := c }
    | none => p.2)

/-- `mergeIconTextPairs(elements, screenshotWidth, screenshotHeight)` —
the dimension parameters are unused by the body, as in the source. -/
def mergeIconTextPairs (elements : List ParsedElement)
    (_screenshotWidth _screenshotHeight : ℚ) : List ParsedElement :=
  let icons := (enumFrom 0 elements).filter (fun p => p.2.type = ElemType.icon)
  let texts := elements.filter (fun e => e.type = ElemType.text)
  let (updates, consumed) := iconMergeFold texts icons [] []
  (applyUpdates elements updates).filter (fun e => ¬ consumed.contains e.id)

/-! ### Element resolver — `llmElementMatcher.ts`
(`matchElement` / `matchElementWithRetry` / `parseLLMResponse`)

Collaborators modelled as parameters:
  * `preFilter` — the class's `preFilterCandidates` heuristic funnel; the
    claims verified here quantify over it, so every theorem below holds in
    particular for the concrete funnel of the source.
  * `llm` — the outcome of `llmRouter.processPrompt` (§ above): the response
    text, or the thrown error.
  * `jsonParse` — the `JSON.parse` builtin, restricted to the three fields
    the code reads (`elementIndex`, `confidence`, `reasoning`); JSON numbers
    are arbitrary rationals (doubles), so a non-integer `elementIndex` is a
    legal parse result. -/

/-- A JSON field as the validation code sees it: a number, or anything that
fails `typeof x !== 'number'` (missing, string, object, …). -/
inductive JsonNum where
  | num (q : ℚ) : JsonNum
  | notNum : JsonNum
deriving DecidableEq, Repr

/-- The fields `parseLLMResponse` reads from the parsed response. -/
structure LLMJsonResponse where
  elementIndex : JsonNum
  confidence : JsonNum
  /-- `none` models any falsy `reasoning` other than `''` (absent, null). -/
  reasoning : Option String
deriving DecidableEq, Repr

structure ElementMatchResult where
  element : Option ParsedElement
  confidence : ℚ
  reasoning : String
  attemptNumber : Option Nat := none
  excludedCount : Option Nat := none
deriving DecidableEq, Repr

/-- `MatchOptions` fields used by `matchElement` / `matchElementWithRetry`
themselves (the remaining context fields only feed the parameterised
pre-filter and prompt builder). -/
structure MatchOptions where
  windowBounds : Option WindowBounds := none
  excludedElementIds : Option (List Int) := none
  maxRetries : Option Nat := none
deriving DecidableEq, Repr

def backtickChar : Char := Char.ofNat 96

/-- Drop one leading occurrence of `ch`, if present. -/
def dropOptChar (ch : Char) (l : List Char) : List Char :=
  match l with
  | [] => []
  | x :: xs => if x = ch then xs else l

/-- `replace(/```json?\n?/g, '')`: remove every occurrence of three
backticks followed by `jso`, an optional `n` and an optional newline
(left-to-right, non-overlapping).  Fuel-indexed; the fuel is the input
length, which bounds the number of steps. -/
def stripFenceAux : Nat → List Char → List Char
  | 0, cs => cs
  | _ + 1, [] => []
  | fuel + 1, c :: cs =>
      if c = backtickChar ∧
          cs.take 5 = [backtickChar, backtickChar, 'j', 's', 'o'] then
        stripFenceAux fuel (dropOptChar '\n' (dropOptChar 'n' (cs.drop 5)))
      else c :: stripFenceAux fuel cs

def fence3 : String := String.mk [backtickChar, backtickChar, backtickChar]

/-- Drop the last `n` characters. -/
def dropRightStr (s : String) (n : Nat) : String :=
  String.mk (s.data.take (s.data.length - n))

/-- `replace(/```\n?$/g, '')`: remove a trailing fence, with or without a
final newline. -/
def removeTrailingFence (s : String) : String :=
  if s.endsWith fence3 then dropRightStr s 3
  else if s.endsWith (fence3 ++ "\n") then dropRightStr s 4
  else s

/-- The code-fence stripping prologue of `parseLLMResponse`. -/
def stripFences (response : String) : String :=
  let t := trimStr response
  if t.startsWith fence3 then
    trimStr (removeTrailingFence (String.mk (stripFenceAux t.data.length t.data)))
  else t

/-- JS array subscript `l[q]` for a JS-number index: an element only for an
integral index within bounds, `undefined` otherwise. -/
def jsArrayGet (l : List α) (q : ℚ) : Option α :=
  if q.den = 1 ∧ 0 ≤ q.num then l.get? q.num.toNat else none

/-- The fallback result produced by the `catch` inside `parseLLMResponse`. -/
def parseFallback (candidates : List ParsedElement) (msg : String) :
    ElementMatchResult :=
  { element := candidates.head?, confidence := 1 / 2,
    reasoning := "Failed to parse LLM response: " ++ msg }

/-- `parseLLMResponse(response, candidates)`: strip fences, parse, validate
`elementIndex` (a number in `[1, candidates.length]`) and `confidence` (a
number in `[0, 1]`); any parse or validation failure is caught internally
and degrades to the first candidate at confidence 0.5.  (The numeric
renderings inside the JS error messages are not reproduced.) -/
def parseLLMResponse (jsonParse : String → Except String LLMJsonResponse)
    (response : String) (candidates : List ParsedElement) : ElementMatchResult :=
  match jsonParse (stripFences response) with
  | .error e => parseFallback candidates e
  | .ok parsed =>
      match parsed.elementIndex with
      | .notNum => parseFallback candidates "Invalid elementIndex"
      | .num idx =>
          if idx < 1 ∨ idx > (candidates.length : ℚ) then
            parseFallback candidates "Invalid elementIndex"
          else
            match parsed.confidence with
            | .notNum => parseFallback candidates "Invalid confidence"
            | .num conf =>
                if conf < 0 ∨ conf > 1 then
                  parseFallback candidates "Invalid confidence"
                else
                  { element := jsArrayGet candidates (idx - 1),
                    confidence := conf,
                    reasoning :=
                      match parsed.reasoning with
                      | some r => if r = "" then "LLM match" else r
                      | none => "LLM match" }

/-- The pre-filter funnel type (`preFilterCandidates` in the source). -/
def PreFilter : Type :=
  String → List ParsedElement → MatchOptions → List ParsedElement

/-- `matchElement(description, elements, options)`.  The `try` block spans
both the router call and the low-confidence check, so the deliberate
low-confidence `throw` is caught by the block's own `catch`, which degrades
to the first candidate at confidence 0.5 — exactly as a router failure is. -/
def matchElement (preFilter : PreFilter) (llm : Except String String)
    (jsonParse : String → Except String LLMJsonResponse)
    (description : String) (elements : List ParsedElement)
    (options : MatchOptions) : ElementMatchResult :=
  if elements.isEmpty then
    { element := none, confidence := 0, reasoning := "No elements provided" }
  else
    let excludedIds := options.excludedElementIds.getD []
    let availableElements :=
      if 0 < excludedIds.length then
        elements.filter (fun e => ¬ excludedIds.contains e.id)
      else elements
    if availableElements.isEmpty then
      { element := none, confidence := 0,
        reasoning := "All elements have been excluded from previous attempts" }
    else
      let candidates := preFilter description availableElements options
      if candidates.isEmpty then
        { element := none, confidence := 0,
          reasoning := "No matching candidates found" }
      else
        match llm with
        | .error e =>
            { element := candidates.head?, confidence := 1 / 2,
              reasoning := "LLM matching failed, using first candidate: " ++ e }
        | .ok text =>
            let result := parseLLMResponse jsonParse text candidates
            if result.confidence < 1 / 2 then
              let msg :=
                if options.windowBounds.isNone then
                  "Element matching failed: Low confidence - Frontend must send windowBounds in context."
                else
                  "Element matching failed: Low confidence - No good match."
              { element := candidates.head?, confidence := 1 / 2,
                reasoning := "LLM matching failed, using first candidate: " ++ msg }
            else result

/-- The `for (let attempt = 1; attempt <= maxRetries; attempt++)` loop of
`matchElementWithRetry`; `llm` gives each attempt's router outcome.  Note the
exclusion list is the caller-supplied one on every attempt — the loop never
adds to it. -/
def matchRetryAux (preFilter : PreFilter) (llm : Nat → Except String String)
    (jsonParse : String → Except String LLMJsonResponse)
    (description : String) (elements : List ParsedElement)
    (options : MatchOptions) (excludedIds : List Int) (maxRetries : Nat) :
    Nat → ElementMatchResult
  | 0 =>
      { element := none, confidence := 0,
        reasoning := "No match found after " ++ toString maxRetries ++ " attempts",
        attemptNumber := some maxRetries, excludedCount := some excludedIds.length }
  | remaining + 1 =>
      let attempt := maxRetries - remaining
      let result := matchElement preFilter (llm attempt) jsonParse description
        elements { options with excludedElementIds := some excludedIds }
      if result.element.isSome then
        { result with attemptNumber := some attempt,
                      excludedCount := some excludedIds.length }
      else
        matchRetryAux preFilter llm jsonParse description elements options
          excludedIds maxRetries remaining

/-- `matchElementWithRetry(description, elements, options)`.
`options.maxRetries || 3` (`0` is falsy in JS). -/
def matchElementWithRetry (preFilter : PreFilter)
    (llm : Nat → Except String String)
    (jsonParse : String → Except String LLMJsonResponse)
    (description : String) (elements : List ParsedElement)
    (options : MatchOptions) : ElementMatchResult :=
  let maxRetries :=
    match options.maxRetries with
    | some n => if n = 0 then 3 else n
    | none => 3
  let excludedIds := options.excludedElementIds.getD []
  matchRetryAux preFilter llm jsonParse description elements options
    excludedIds maxRetries maxRetries

/-! ## Supporting lemmas: dispatch order -/

theorem exceptIsOk_ok (t : α) : (Except.ok t : Except ε α).isOk = true := rfl

theorem exceptIsOk_error (e : ε) : (Except.error e : Except ε α).isOk = false := rfl

/-- The providers attempted by the `processPrompt` loop are exactly the
failing prefix of the ordered list followed by the first succeeding provider
(if any). -/
theorem tryProviders_attempts (env : String → Bool)
    (net : String → Except String String) : ∀ (L : List String),
    (tryProviders env net L).1.map Prod.fst
      = L.takeWhile (fun p => !((callProvider env net p).2.isOk)) ++
        (L.dropWhile (fun p => !((callProvider env net p).2.isOk))).take 1 := by
  intro L
  induction L with
  | nil => simp [tryProviders]
  | cons p rest ih =>
      rcases hc : callProvider env net p with ⟨b, r⟩
      cases r with
      | ok t =>
          have hp : ((callProvider env net p).2.isOk) = true := by
            rw [hc]; rfl
          simp [tryProviders, hc, List.takeWhile_cons, List.dropWhile_cons, hp,
            exceptIsOk_ok]
      | error e =>
          have hp : ((callProvider env net p).2.isOk) = false := by
            rw [hc]; rfl
          simp [tryProviders, hc, List.takeWhile_cons, List.dropWhile_cons, hp, ih,
            exceptIsOk_error]

/-- The winner of the `processPrompt` loop is the first provider in the
ordered list whose call completes without throwing, paired with that call's
text. -/
theorem tryProviders_winner (env : String → Bool)
    (net : String → Except String String) : ∀ (L : List String),
    (tryProviders env net L).2
      = (L.dropWhile (fun p => !((callProvider env net p).2.isOk))).head?.bind
          (fun w => ((callProvider env net w).2.toOption).map (fun t => (w, t))) := by
  intro L
  induction L with
  | nil => simp [tryProviders]
  | cons p rest ih =>
      rcases hc : callProvider env net p with ⟨b, r⟩
      cases r with
      | ok t =>
          have hp : ((callProvider env net p).2.isOk) = true := by
            rw [hc]; rfl
          simp [tryProviders, hc, List.dropWhile_cons, hp, Except.toOption,
            exceptIsOk_ok]
      | error e =>
          have hp : ((callProvider env net p).2.isOk) = false := by
            rw [hc]; rfl
          simp [tryProviders, hc, List.dropWhile_cons, hp, ih, exceptIsOk_error]

theorem exceptToOption_ok (t : α) : (Except.ok t : Except ε α).toOption = some t := rfl

theorem exceptToOption_error (e : ε) : (Except.error e : Except ε α).toOption = none := rfl

/-- Providers the streaming fallback loop attempts: the preferred provider is
skipped, then the failing prefix of the remainder and the first success. -/
theorem streamFallbackLoop_attempts (env : String → Bool) (snet : String → StreamNet)
    (preferred : Option String) : ∀ (l : List String) (ev : List StreamEvent)
    (att : List (String × Bool)),
    (streamFallbackLoop env snet preferred l ev att).2.1
      = att ++
        (((l.filter (fun q => !(decide (preferred = some q)))).takeWhile
            (fun q => !((callProviderWithStreaming env snet q).2.2.isOk)) ++
          ((l.filter (fun q => !(decide (preferred = some q)))).dropWhile
            (fun q => !((callProviderWithStreaming env snet q).2.2.isOk))).take 1).map
          (fun q => (q, (callProviderWithStreaming env snet q).1))) := by
  intro l
  induction l with
  | nil => intro ev att; simp [streamFallbackLoop]
  | cons p rest ih =>
      intro ev att
      by_cases hskip : preferred = some p
      · have hred : streamFallbackLoop env snet preferred (p :: rest) ev att
            = streamFallbackLoop env snet preferred rest ev att := by
          simp [streamFallbackLoop, hskip]
        have hfilt : (p :: rest).filter (fun q => !(decide (preferred = some q)))
            = rest.filter (fun q => !(decide (preferred = some q))) := by
          simp [List.filter_cons, hskip]
        rw [hred, hfilt, ih]
      · have hfilt : (p :: rest).filter (fun q => !(decide (preferred = some q)))
            = p :: rest.filter (fun q => !(decide (preferred = some q))) := by
          simp [List.filter_cons, hskip]
        rcases hc : callProviderWithStreaming env snet p with ⟨n, em, r⟩
        cases r with
        | ok res =>
            have hp : ((callProviderWithStreaming env snet p).2.2.isOk) = true := by
              rw [hc]; rfl
            rw [hfilt]
            simp [streamFallbackLoop, hskip, hc, List.takeWhile_cons,
              List.dropWhile_cons, hp, exceptIsOk_ok]
        | error e =>
            have hp : ((callProviderWithStreaming env snet p).2.2.isOk) = false := by
              rw [hc]; rfl
            rw [hfilt]
            simp [streamFallbackLoop, hskip, hc, List.takeWhile_cons,
              List.dropWhile_cons, hp, ih, exceptIsOk_error]

/-- The streaming fallback loop's winner is the first non-skipped provider
whose call completes without throwing, and the loop returns that call's
result. -/
theorem streamFallbackLoop_winner (env : String → Bool) (snet : String → StreamNet)
    (preferred : Option String) : ∀ (l : List String) (ev : List StreamEvent)
    (att : List (String × Bool)),
    (streamFallbackLoop env snet preferred l ev att).2.2
      = ((l.filter (fun q => !(decide (preferred = some q)))).dropWhile
            (fun q => !((callProviderWithStreaming env snet q).2.2.isOk))).head?.bind
          (fun w => ((callProviderWithStreaming env snet w).2.2).toOption) := by
  intro l
  induction l with
  | nil => intro ev att; simp [streamFallbackLoop]
  | cons p rest ih =>
      intro ev att
      by_cases hskip : preferred = some p
      · have hred : streamFallbackLoop env snet preferred (p :: rest) ev att
            = streamFallbackLoop env snet preferred rest ev att := by
          simp [streamFallbackLoop, hskip]
        have hfilt : (p :: rest).filter (fun q => !(decide (preferred = some q)))
            = rest.filter (fun q => !(decide (preferred = some q))) := by
          simp [List.filter_cons, hskip]
        rw [hred, hfilt, ih]
      · have hfilt : (p :: rest).filter (fun q => !(decide (preferred = some q)))
            = p :: rest.filter (fun q => !(decide (preferred = some q))) := by
          simp [List.filter_cons, hskip]
        rcases hc : callProviderWithStreaming env snet p with ⟨n, em, r⟩
        cases r with
        | ok res =>
            have hp : ((callProviderWithStreaming env snet p).2.2.isOk) = true := by
              rw [hc]; rfl
            have ht : ((callProviderWithStreaming env snet p).2.2.toOption) = some res := by
              rw [hc]; rfl
            rw [hfilt]
            simp [streamFallbackLoop, hskip, hc, List.dropWhile_cons, hp, ht,
              exceptIsOk_ok, exceptToOption_ok]
        | error e =>
            have hp : ((callProviderWithStreaming env snet p).2.2.isOk) = false := by
              rw [hc]; rfl
            rw [hfilt]
            simp [streamFallbackLoop, hskip, hc, List.dropWhile_cons, hp, ih,
              exceptIsOk_error]

/-- The streaming fallback loop only ever appends chunk events to the event
log it is given. -/
theorem streamFallbackLoop_events (env : String → Bool) (snet : String → StreamNet)
    (preferred : Option String) : ∀ (l : List String) (ev : List StreamEvent)
    (att : List (String × Bool)),
    ∃ cs : List LLMStreamChunk,
      (streamFallbackLoop env snet preferred l ev att).1
        = ev ++ cs.map StreamEvent.chunk := by
  intro l
  induction l with
  | nil => intro ev att; exact ⟨[], by simp [streamFallbackLoop]⟩
  | cons p rest ih =>
      intro ev att
      by_cases hskip : preferred = some p
      · have hred : streamFallbackLoop env snet preferred (p :: rest) ev att
            = streamFallbackLoop env snet preferred rest ev att := by
          simp [streamFallbackLoop, hskip]
        rw [hred]; exact ih ev att
      · rcases hc : callProviderWithStreaming env snet p with ⟨n, em, r⟩
        cases r with
        | ok res =>
            exact ⟨em, by simp [streamFallbackLoop, hskip, hc]⟩
        | error e =>
            obtain ⟨cs, hcs⟩ := ih (ev ++ em.map StreamEvent.chunk) (att ++ [(p, n)])
            exact ⟨em ++ cs, by simp [streamFallbackLoop, hskip, hc, hcs]⟩

theorem filter_ne_comm (p : String) (l : List String) :
    l.filter (fun q => !(decide ((some p : Option String) = some q)))
      = l.filter (fun q => q ≠ p) := by
  apply List.filter_congr
  intro q _
  simp [eq_comm]

/-- Full-run attempt trace of the streaming router: the preferred provider
first (when given), then the fixed priority list minus the preferred one,
halting at the first call that completes without throwing. -/
theorem processPromptWithStreaming_attempts (env : String → Bool)
    (snet : String → StreamNet) (preferred : Option String) :
    (processPromptWithStreaming env snet preferred).attempts
      = ((orderProviders preferred streamProviders).takeWhile
            (fun q => !((callProviderWithStreaming env snet q).2.2.isOk)) ++
          ((orderProviders preferred streamProviders).dropWhile
            (fun q => !((callProviderWithStreaming env snet q).2.2.isOk))).take 1).map
          (fun q => (q, (callProviderWithStreaming env snet q).1)) := by
  cases preferred with
  | none =>
      have hloop := streamFallbackLoop_attempts env snet none streamProviders
        [StreamEvent.start] []
      have hfilt : streamProviders.filter
          (fun q => !(decide ((none : Option String) = some q))) = streamProviders := by
        simp
      rcases hres : streamFallbackLoop env snet none streamProviders
          [StreamEvent.start] [] with ⟨ev2, att2, res2⟩
      rw [hres] at hloop
      simp only [hfilt] at hloop
      cases res2 with
      | none => simpa [processPromptWithStreaming, hres, orderProviders] using hloop
      | some r => simpa [processPromptWithStreaming, hres, orderProviders] using hloop
  | some p =>
      rcases hc : callProviderWithStreaming env snet p with ⟨n, em, r⟩
      cases r with
      | ok res =>
          have hp : ((callProviderWithStreaming env snet p).2.2.isOk) = true := by
            rw [hc]; rfl
          simp [processPromptWithStreaming, hc, orderProviders,
            List.takeWhile_cons, List.dropWhile_cons, hp, Except.toOption,
            exceptIsOk_ok]
      | error e =>
          have hp : ((callProviderWithStreaming env snet p).2.2.isOk) = false := by
            rw [hc]; rfl
          have hloop := streamFallbackLoop_attempts env snet (some p) streamProviders
            ([StreamEvent.start] ++ em.map StreamEvent.chunk) [(p, n)]
          rw [filter_ne_comm] at hloop
          rcases hres : streamFallbackLoop env snet (some p) streamProviders
              ([StreamEvent.start] ++ em.map StreamEvent.chunk) [(p, n)] with ⟨ev2, att2, res2⟩
          rw [hres] at hloop
          simp only [ne_eq, decide_not] at hloop
          have hn : n = (callProviderWithStreaming env snet p).1 := by rw [hc]
          cases res2 with
          | none =>
              simp only [processPromptWithStreaming, hc, Except.toOption, hres,
                orderProviders, List.takeWhile_cons, List.dropWhile_cons, hp]
              simp [hloop, hn, exceptIsOk_error, ne_eq, decide_not]
          | some r =>
              simp only [processPromptWithStreaming, hc, Except.toOption, hres,
                orderProviders, List.takeWhile_cons, List.dropWhile_cons, hp]
              simp [hloop, hn, exceptIsOk_error, ne_eq, decide_not]

/-- Full-run winner of the streaming router: the first provider in
[preferred, priority-minus-preferred] order whose call completes without
throwing; the run returns exactly that call's result. -/
theorem processPromptWithStreaming_winner (env : String → Bool)
    (snet : String → StreamNet) (preferred : Option String) :
    (processPromptWithStreaming env snet preferred).result.toOption
      = ((orderProviders preferred streamProviders).dropWhile
            (fun q => !((callProviderWithStreaming env snet q).2.2.isOk))).head?.bind
          (fun w => ((callProviderWithStreaming env snet w).2.2).toOption) := by
  cases preferred with
  | none =>
      have hloop := streamFallbackLoop_winner env snet none streamProviders
        [StreamEvent.start] []
      have hfilt : streamProviders.filter
          (fun q => !(decide ((none : Option String) = some q))) = streamProviders := by
        simp
      rcases hres : streamFallbackLoop env snet none streamProviders
          [StreamEvent.start] [] with ⟨ev2, att2, res2⟩
      rw [hres] at hloop
      simp only [hfilt] at hloop
      cases res2 with
      | none =>
          have hr : (processPromptWithStreaming env snet none).result
              = .error allStreamFailedMsg := by
            simp [processPromptWithStreaming, hres]
          rw [hr, exceptToOption_error, orderProviders]
          simpa using hloop
      | some r =>
          have hr : (processPromptWithStreaming env snet none).result = .ok r := by
            simp [processPromptWithStreaming, hres]
          rw [hr, exceptToOption_ok, orderProviders]
          simpa using hloop
  | some p =>
      rcases hc : callProviderWithStreaming env snet p with ⟨n, em, r⟩
      cases r with
      | ok res =>
          have hp : ((callProviderWithStreaming env snet p).2.2.isOk) = true := by
            rw [hc]; rfl
          have ht : ((callProviderWithStreaming env snet p).2.2.toOption) = some res := by
            rw [hc]; rfl
          have hr : (processPromptWithStreaming env snet (some p)).result = .ok res := by
            simp [processPromptWithStreaming, hc, exceptToOption_ok]
          rw [hr, exceptToOption_ok]
          simp [orderProviders, List.dropWhile_cons, hp, ht]
      | error e =>
          have hp : ((callProviderWithStreaming env snet p).2.2.isOk) = false := by
            rw [hc]; rfl
          have hloop := streamFallbackLoop_winner env snet (some p) streamProviders
            (StreamEvent.start :: em.map StreamEvent.chunk) [(p, n)]
          rw [filter_ne_comm] at hloop
          rcases hres : streamFallbackLoop env snet (some p) streamProviders
              (StreamEvent.start :: em.map StreamEvent.chunk) [(p, n)] with ⟨ev2, att2, res2⟩
          rw [hres] at hloop
          simp only [ne_eq, decide_not] at hloop
          cases res2 with
          | none =>
              have hr : (processPromptWithStreaming env snet (some p)).result
                  = .error allStreamFailedMsg := by
                simp [processPromptWithStreaming, hc, hres, exceptToOption_error]
              rw [hr, exceptToOption_error, orderProviders]
              simp only [List.dropWhile_cons, hp, Bool.not_false, if_true]
              simpa [ne_eq, decide_not] using hloop
          | some r =>
              have hr : (processPromptWithStreaming env snet (some p)).result = .ok r := by
                simp [processPromptWithStreaming, hc, hres, exceptToOption_error]
              rw [hr, exceptToOption_ok, orderProviders]
              simp only [List.dropWhile_cons, hp, Bool.not_false, if_true]
              simpa [ne_eq, decide_not] using hloop

/-! ## Claim theorems -/

/-- C9: for every streaming dispatch invocation, the `onChunk` callback
receives exactly one Start event first, then zero or more Chunk events, then
exactly one terminal event — an End event carrying the returned result on
success, or an Error event on failure — and never both an End and an Error
for the same request. -/
theorem C9_stream_event_ordering (env : String → Bool) (snet : String → StreamNet)
    (preferred : Option String) :
    ∃ (cs : List LLMStreamChunk) (t : StreamEvent),
      (processPromptWithStreaming env snet preferred).events
        = StreamEvent.start :: cs.map StreamEvent.chunk ++ [t]
      ∧ ((∃ r, (processPromptWithStreaming env snet preferred).result = .ok r
            ∧ t = .endEv r)
         ∨ ((processPromptWithStreaming env snet preferred).result
              = .error allStreamFailedMsg ∧ t = .errorEv allStreamFailedMsg)) := by
  cases preferred with
  | none =>
      obtain ⟨cs, hcs⟩ := streamFallbackLoop_events env snet none streamProviders
        [StreamEvent.start] []
      rcases hres : streamFallbackLoop env snet none streamProviders
          [StreamEvent.start] [] with ⟨ev2, att2, res2⟩
      rw [hres] at hcs
      cases res2 with
      | none =>
          refine ⟨cs, .errorEv allStreamFailedMsg, ?_, ?_⟩
          · simp [processPromptWithStreaming, hres, hcs]
          · exact Or.inr ⟨by simp [processPromptWithStreaming, hres], rfl⟩
      | some r =>
          refine ⟨cs, .endEv r, ?_, ?_⟩
          · simp [processPromptWithStreaming, hres, hcs]
          · exact Or.inl ⟨r, by simp [processPromptWithStreaming, hres], rfl⟩
  | some p =>
      rcases hc : callProviderWithStreaming env snet p with ⟨n, em, r⟩
      cases r with
      | ok res =>
          refine ⟨em, .endEv res, ?_, ?_⟩
          · simp [processPromptWithStreaming, hc, exceptToOption_ok]
          · exact Or.inl ⟨res, by simp [processPromptWithStreaming, hc, exceptToOption_ok], rfl⟩
      | error e =>
          obtain ⟨cs, hcs⟩ := streamFallbackLoop_events env snet (some p) streamProviders
            (StreamEvent.start :: em.map StreamEvent.chunk) [(p, n)]
          rcases hres : streamFallbackLoop env snet (some p) streamProviders
              (StreamEvent.start :: em.map StreamEvent.chunk) [(p, n)] with ⟨ev2, att2, res2⟩
          rw [hres] at hcs
          cases res2 with
          | none =>
              refine ⟨em ++ cs, .errorEv allStreamFailedMsg, ?_, ?_⟩
              · simp [processPromptWithStreaming, hc, hres, exceptToOption_error, hcs]
              · exact Or.inr ⟨by
                  simp [processPromptWithStreaming, hc, hres, exceptToOption_error], rfl⟩
          | some r =>
              refine ⟨em ++ cs, .endEv r, ?_, ?_⟩
              · simp [processPromptWithStreaming, hc, hres, exceptToOption_error, hcs]
              · exact Or.inl ⟨r, by
                  simp [processPromptWithStreaming, hc, hres, exceptToOption_error], rfl⟩

/-- C2: for every provider list and every optional preferred provider, both
dispatchers attempt providers strictly in the order
[preferred first if given, then the fixed priority list minus the preferred
provider], halting at the first provider call that completes without
throwing, and the winner's result is what the dispatch returns.
Conjuncts: (a)/(b) the non-streaming loop over an arbitrary provider list;
(c) `processPrompt` (fixed list) returns the first winner's text/provider;
(d)/(e) the streaming router's attempt trace and returned result. -/
theorem C2_dispatch_order (env : String → Bool) (net : String → Except String String)
    (snet : String → StreamNet) (providers : List String) (preferred : Option String) :
    ((tryProviders env net (orderProviders preferred providers)).1.map Prod.fst
        = (orderProviders preferred providers).takeWhile
            (fun q => !((callProvider env net q).2.isOk)) ++
          ((orderProviders preferred providers).dropWhile
            (fun q => !((callProvider env net q).2.isOk))).take 1)
    ∧ ((tryProviders env net (orderProviders preferred providers)).2
        = ((orderProviders preferred providers).dropWhile
            (fun q => !((callProvider env net q).2.isOk))).head?.bind
            (fun w => ((callProvider env net w).2.toOption).map (fun t => (w, t))))
    ∧ ((processPrompt env net preferred).2.toOption
        = ((orderProviders preferred llmProviders).dropWhile
            (fun q => !((callProvider env net q).2.isOk))).head?.bind
            (fun w => ((callProvider env net w).2.toOption).map
              (fun t => LLMRouterResult.mk t w)))
    ∧ ((processPromptWithStreaming env snet preferred).attempts.map Prod.fst
        = (orderProviders preferred streamProviders).takeWhile
            (fun q => !((callProviderWithStreaming env snet q).2.2.isOk)) ++
          ((orderProviders preferred streamProviders).dropWhile
            (fun q => !((callProviderWithStreaming env snet q).2.2.isOk))).take 1)
    ∧ ((processPromptWithStreaming env snet preferred).result.toOption
        = ((orderProviders preferred streamProviders).dropWhile
            (fun q => !((callProviderWithStreaming env snet q).2.2.isOk))).head?.bind
            (fun w => ((callProviderWithStreaming env snet w).2.2).toOption)) := by
  refine ⟨tryProviders_attempts env net _, tryProviders_winner env net _, ?_, ?_,
    processPromptWithStreaming_winner env snet preferred⟩
  · have hw := tryProviders_winner env net (orderProviders preferred llmProviders)
    rcases htp : tryProviders env net (orderProviders preferred llmProviders) with ⟨att, res⟩
    rw [htp] at hw
    cases hh : ((orderProviders preferred llmProviders).dropWhile
        (fun q => !((callProvider env net q).2.isOk))).head? with
    | none =>
        rw [hh] at hw
        simp only [Option.bind] at hw
        cases res with
        | none => simp [processPrompt, htp, hh, exceptToOption_error, Option.bind]
        | some pt => simp at hw
    | some w =>
        rw [hh] at hw
        simp only [Option.bind] at hw
        cases hto : ((callProvider env net w).2.toOption) with
        | none =>
            rw [hto] at hw
            simp only [Option.map] at hw
            cases res with
            | none =>
                simp [processPrompt, htp, hh, hto, exceptToOption_error, Option.bind,
                  Option.map]
            | some pt => simp at hw
        | some t =>
            rw [hto] at hw
            simp only [Option.map] at hw
            cases res with
            | none => simp at hw
            | some pt =>
                obtain rfl : (w, t) = pt := by simpa using hw.symm
                simp [processPrompt, htp, hh, hto, exceptToOption_ok, Option.bind,
                  Option.map]
  · have ha := processPromptWithStreaming_attempts env snet preferred
    rw [ha]
    simp [List.map_map, Function.comp_def]

theorem exceptToOption_eq_some {ε α : Type} {x : Except ε α} {a : α}
    (h : x.toOption = some a) : x = .ok a := by
  cases x with
  | ok b => rw [exceptToOption_ok] at h; rw [Option.some_inj] at h; rw [h]
  | error e => rw [exceptToOption_error] at h; exact absurd h (by simp)

/-- With no ANTHROPIC credential, the streaming call to claude fails locally,
before any network interaction. -/
theorem callClaude_noCred (env : String → Bool) (snet : String → StreamNet)
    (hA : env "ANTHROPIC_API_KEY" = false) :
    callProviderWithStreaming env snet "claude"
      = (false, [], .error ("ANTHROPIC_API_KEY" ++ " not configured")) := by
  have h1 : streamCredVar "claude" = some "ANTHROPIC_API_KEY" := rfl
  simp [callProviderWithStreaming, h1, hA]

/-- With the OPENAI credential present and a succeeding stream, the openai
streaming call returns the concatenated text under provider "openai" with no
`fallbackChain` field. -/
theorem callOpenAI_ok (env : String → Bool) (snet : String → StreamNet)
    (u : TokenUsage) (hO : env "OPENAI_API_KEY" = true)
    (hnet : (snet "openai").outcome = .ok u) :
    callProviderWithStreaming env snet "openai"
      = (true, (snet "openai").chunks.map (fun t => LLMStreamChunk.mk t "openai"),
         .ok ⟨String.join (snet "openai").chunks, "openai", u, none⟩) := by
  have h1 : streamCredVar "openai" = some "OPENAI_API_KEY" := rfl
  simp [callProviderWithStreaming, h1, hO, hnet]

/-- Concrete environment for the C1 scenario: only the OPENAI credential is
configured. -/
def envC1 : String → Bool := fun k => k = "OPENAI_API_KEY"

/-- Concrete provider streams for the C1 scenario: every provider would
deliver one fragment "Hello" and succeed (only openai is ever reached). -/
def snetC1 : String → StreamNet := fun _ => ⟨["Hello"], .ok zeroUsage⟩

/-- C1 (counterexample): in the spec's scenario — preferred "claude", no
ANTHROPIC credential, a valid "openai" credential — the streaming dispatch
does return provider "openai", but its `fallbackChain` field is never
populated (it is `undefined`), so the claimed first trace entry
{provider: "claude", success: false} does not exist. -/
theorem C1_counterexample :
    (processPromptWithStreaming envC1 snetC1 (some "claude")).result
        = .ok ⟨"Hello", "openai", zeroUsage, none⟩
    ∧ ¬ ∃ (r : LLMStreamResult) (c : FallbackRecord) (rest : List FallbackRecord),
        (processPromptWithStreaming envC1 snetC1 (some "claude")).result = .ok r
        ∧ r.fallbackChain = some (c :: rest)
        ∧ c.provider = "claude" ∧ c.success = false := by
  have hres : (processPromptWithStreaming envC1 snetC1 (some "claude")).result
      = .ok ⟨"Hello", "openai", zeroUsage, none⟩ := by rfl
  refine ⟨hres, ?_⟩
  rintro ⟨r, c, rest, hr, hfc, -, -⟩
  rw [hres] at hr
  cases hr
  exact absurd hfc (by simp)

/-- C1 (amended): with preferred "claude", no ANTHROPIC credential and a
valid, succeeding "openai" credential, the streaming dispatch returns a
result with provider "openai" whose `fallbackChain` field is absent (`none`;
the streaming router never records a fallback trace), and the first attempt
of the run is claude failing locally without a network request. -/
theorem C1_streaming_no_fallback_trace (env : String → Bool)
    (snet : String → StreamNet) (u : TokenUsage)
    (hA : env "ANTHROPIC_API_KEY" = false) (hO : env "OPENAI_API_KEY" = true)
    (hnet : (snet "openai").outcome = .ok u) :
    (processPromptWithStreaming env snet (some "claude")).result
        = .ok ⟨String.join (snet "openai").chunks, "openai", u, none⟩
    ∧ (processPromptWithStreaming env snet (some "claude")).attempts.head?
        = some ("claude", false) := by
  have hclaude := callClaude_noCred env snet hA
  have hopenai := callOpenAI_ok env snet u hO hnet
  have hCfail : ((callProviderWithStreaming env snet "claude").2.2.isOk) = false := by
    rw [hclaude]; rfl
  have hOok : ((callProviderWithStreaming env snet "openai").2.2.isOk) = true := by
    rw [hopenai]; rfl
  have horder : orderProviders (some "claude") streamProviders
      = "claude" :: "openai" :: ["gemini", "mistral", "deepseek", "grok", "lambda"] := by
    decide
  have htoOpt : ((callProviderWithStreaming env snet "openai").2.2).toOption
      = some ⟨String.join (snet "openai").chunks, "openai", u, none⟩ := by
    rw [hopenai]; rfl
  constructor
  · have hw := processPromptWithStreaming_winner env snet (some "claude")
    rw [horder] at hw
    simp [List.dropWhile_cons, hCfail, hOok, htoOpt] at hw
    exact exceptToOption_eq_some hw
  · have ha := processPromptWithStreaming_attempts env snet (some "claude")
    rw [horder] at ha
    simp [List.takeWhile_cons, List.dropWhile_cons, hCfail, hOok] at ha
    rw [ha]
    simp [hclaude]

/-- Every provider fails locally (and issues no network request) when none
of the five non-streaming credentials is configured. -/
theorem callProvider_noCred (env : String → Bool) (net : String → Except String String)
    (h1 : env "OPENAI_API_KEY" = false) (h2 : env "ANTHROPIC_API_KEY" = false)
    (h3 : env "GEMINI_API_KEY" = false) (h4 : env "MISTRAL_API_KEY" = false)
    (h5 : env "DEEPSEEK_API_KEY" = false) (p : String) :
    (callProvider env net p).1 = false ∧ ((callProvider env net p).2.isOk) = false := by
  rcases hcred : credentialEnvVar p with - | k
  · simp [callProvider, hcred, exceptIsOk_error]
  · have hk : env k = false := by
      unfold credentialEnvVar at hcred
      split_ifs at hcred <;>
        (rw [Option.some_inj] at hcred; rw [← hcred]; assumption)
    simp [callProvider, hcred, hk, exceptIsOk_error]

/-- Every streaming provider fails locally (and issues no network request)
when none of the seven streaming credentials is configured. -/
theorem callStreamProvider_noCred (env : String → Bool) (snet : String → StreamNet)
    (h1 : env "OPENAI_API_KEY" = false) (h2 : env "ANTHROPIC_API_KEY" = false)
    (h3 : env "GEMINI_API_KEY" = false) (h4 : env "MISTRAL_API_KEY" = false)
    (h5 : env "DEEPSEEK_API_KEY" = false) (h6 : env "GROK_API_KEY" = false)
    (h7 : env "LAMBDA_AI" = false) (p : String) :
    (callProviderWithStreaming env snet p).1 = false
    ∧ ((callProviderWithStreaming env snet p).2.2.isOk) = false := by
  rcases hcred : streamCredVar p with - | k
  · simp [callProviderWithStreaming, hcred, exceptIsOk_error]
  · have hk : env k = false := by
      unfold streamCredVar at hcred
      split_ifs at hcred <;>
        (rw [Option.some_inj] at hcred; rw [← hcred]; assumption)
    simp [callProviderWithStreaming, hcred, hk, exceptIsOk_error]

/-- Attempts recorded by the `processPrompt` loop carry the provider's own
network-reached flag. -/
theorem tryProviders_mem_flag (env : String → Bool)
    (net : String → Except String String) : ∀ (L : List String)
    (a : String × Bool), a ∈ (tryProviders env net L).1 →
    a.2 = (callProvider env net a.1).1 := by
  intro L
  induction L with
  | nil => intro a ha; simp [tryProviders] at ha
  | cons p rest ih =>
      intro a ha
      rcases hc : callProvider env net p with ⟨b, r⟩
      cases r with
      | ok t =>
          rw [show tryProviders env net (p :: rest)
              = ([(p, b)], some (p, t)) from by simp [tryProviders, hc]] at ha
          simp at ha
          subst ha
          rw [hc]
      | error e =>
          rw [show tryProviders env net (p :: rest)
              = ((p, b) :: (tryProviders env net rest).1,
                 (tryProviders env net rest).2) from by
            simp [tryProviders, hc]] at ha
          rcases List.mem_cons.mp ha with h | h
          · rw [h, hc]
          · exact ih a h

theorem dropWhile_all {α : Type} (p : α → Bool) :
    ∀ (l : List α), (∀ x ∈ l, p x = true) → l.dropWhile p = [] := by
  intro l
  induction l with
  | nil => intro h; rfl
  | cons a rest ih =>
      intro h
      rw [List.dropWhile_cons, if_pos (h a (List.mem_cons_self a rest))]
      exact ih (fun x hx => h x (List.mem_cons_of_mem a hx))

/-- The streaming router either throws the all-providers-failed error or
returns some winner's result. -/
theorem processPromptWithStreaming_result_cases (env : String → Bool)
    (snet : String → StreamNet) (preferred : Option String) :
    (processPromptWithStreaming env snet preferred).result = .error allStreamFailedMsg
    ∨ ∃ r, (processPromptWithStreaming env snet preferred).result = .ok r := by
  cases preferred with
  | none =>
      rcases hres : streamFallbackLoop env snet none streamProviders
          [StreamEvent.start] [] with ⟨ev2, att2, res2⟩
      cases res2 with
      | none => exact Or.inl (by simp [processPromptWithStreaming, hres])
      | some r => exact Or.inr ⟨r, by simp [processPromptWithStreaming, hres]⟩
  | some p =>
      rcases hc : callProviderWithStreaming env snet p with ⟨n, em, r⟩
      cases r with
      | ok res =>
          exact Or.inr ⟨res, by simp [processPromptWithStreaming, hc, exceptToOption_ok]⟩
      | error e =>
          rcases hres : streamFallbackLoop env snet (some p) streamProviders
              (StreamEvent.start :: em.map StreamEvent.chunk) [(p, n)] with ⟨ev2, att2, res2⟩
          cases res2 with
          | none =>
              exact Or.inl (by
                simp [processPromptWithStreaming, hc, hres, exceptToOption_error])
          | some r =>
              exact Or.inr ⟨r, by
                simp [processPromptWithStreaming, hc, hres, exceptToOption_error]⟩

/-- C3: when no provider has its required credential configured, both
dispatchers fail with their all-providers-failed error, and no attempt
reaches the network: every recorded attempt is an immediate local failure
(its network-reached flag is false). -/
theorem C3_no_credentials_no_network (env : String → Bool)
    (net : String → Except String String) (snet : String → StreamNet)
    (preferred : Option String)
    (h1 : env "OPENAI_API_KEY" = false) (h2 : env "ANTHROPIC_API_KEY" = false)
    (h3 : env "GEMINI_API_KEY" = false) (h4 : env "MISTRAL_API_KEY" = false)
    (h5 : env "DEEPSEEK_API_KEY" = false) (h6 : env "GROK_API_KEY" = false)
    (h7 : env "LAMBDA_AI" = false) :
    (processPrompt env net preferred).2 = .error "[LLMRouter] All providers failed"
    ∧ (∀ a ∈ (processPrompt env net preferred).1, a.2 = false)
    ∧ (processPromptWithStreaming env snet preferred).result = .error allStreamFailedMsg
    ∧ (∀ a ∈ (processPromptWithStreaming env snet preferred).attempts, a.2 = false) := by
  have hfail : ∀ p, ((callProvider env net p).2.isOk) = false :=
    fun p => (callProvider_noCred env net h1 h2 h3 h4 h5 p).2
  have hflag : ∀ p, (callProvider env net p).1 = false :=
    fun p => (callProvider_noCred env net h1 h2 h3 h4 h5 p).1
  have hsfail : ∀ p, ((callProviderWithStreaming env snet p).2.2.isOk) = false :=
    fun p => (callStreamProvider_noCred env snet h1 h2 h3 h4 h5 h6 h7 p).2
  have hsflag : ∀ p, (callProviderWithStreaming env snet p).1 = false :=
    fun p => (callStreamProvider_noCred env snet h1 h2 h3 h4 h5 h6 h7 p).1
  have hres : (tryProviders env net (orderProviders preferred llmProviders)).2 = none := by
    rw [tryProviders_winner]
    rw [dropWhile_all _ _ (fun x _ => by simp [hfail x])]
    rfl
  refine ⟨?_, ?_, ?_, ?_⟩
  · rcases htp : tryProviders env net (orderProviders preferred llmProviders)
        with ⟨att, res⟩
    rw [htp] at hres
    simp only at hres
    subst hres
    simp [processPrompt, htp]
  · intro a ha
    have hmem : a ∈ (tryProviders env net (orderProviders preferred llmProviders)).1 := by
      rcases htp : tryProviders env net (orderProviders preferred llmProviders)
          with ⟨att, res⟩
      rw [htp] at hres
      simp only at hres
      subst hres
      rw [show (processPrompt env net preferred).1 = att from by
        simp [processPrompt, htp]] at ha
      exact ha
    rw [tryProviders_mem_flag env net _ a hmem]
    exact hflag a.1
  · have hw := processPromptWithStreaming_winner env snet preferred
    rw [dropWhile_all _ _ (fun x _ => by simp [hsfail x])] at hw
    simp only [List.head?_nil, Option.none_bind] at hw
    rcases processPromptWithStreaming_result_cases env snet preferred with h | ⟨r, h⟩
    · exact h
    · rw [h, exceptToOption_ok] at hw
      exact absurd hw (by simp)
  · intro a ha
    rw [processPromptWithStreaming_attempts env snet preferred] at ha
    obtain ⟨q, -, rfl⟩ := List.mem_map.mp ha
    exact hsflag q

/-- Concrete no-credential environment for the C3 witness. -/
def envNone : String → Bool := fun _ => false

/-- Concrete network oracles for the C3 witness (never reached). -/
def netFail : String → Except String String := fun _ => .error "unreached"

def snetFail : String → StreamNet := fun _ => ⟨[], .error "unreached"⟩

/-- Witness for C3 at a concrete input. -/
theorem C3_witness :
    (processPrompt envNone netFail (some "claude")).2
        = .error "[LLMRouter] All providers failed"
    ∧ (∀ a ∈ (processPrompt envNone netFail (some "claude")).1, a.2 = false)
    ∧ (processPromptWithStreaming envNone snetFail (some "claude")).result
        = .error allStreamFailedMsg
    ∧ (∀ a ∈ (processPromptWithStreaming envNone snetFail (some "claude")).attempts,
        a.2 = false) :=
  C3_no_credentials_no_network envNone netFail snetFail (some "claude")
    rfl rfl rfl rfl rfl rfl rfl

/-- Witness for C1's amended theorem at a concrete input. -/
theorem C1_witness :
    (processPromptWithStreaming envC1 snetC1 (some "claude")).result
        = .ok ⟨String.join (snetC1 "openai").chunks, "openai", zeroUsage, none⟩
    ∧ (processPromptWithStreaming envC1 snetC1 (some "claude")).attempts.head?
        = some ("claude", false) :=
  C1_streaming_no_fallback_trace envC1 snetC1 zeroUsage rfl rfl rfl

/-- While a warmup is in flight, further `ensureWarm()` calls observe
`isWarm() = true` and do nothing: no ping, no state change. -/
theorem ensureWarmN_inflight (now : Int) : ∀ (n : Nat) (s : WarmupState),
    s.clientConfigured = true → s.inFlight.isSome = true →
    ensureWarmN n s now = (s, 0) := by
  intro n
  induction n with
  | zero => intro s _ _; rfl
  | succ n ih =>
      intro s hc hin
      have hw : isWarm s now = true := by simp [isWarm, hc, hin]
      simp [ensureWarmN, ensureWarm, hw, ih s hc hin]

/-- C4: at most one warmup is outstanding at any time.  (a) A `warmup()` call
made while a warmup is in flight returns the same in-flight handle, issues no
new external ping and leaves the state (in particular the warmup counter)
unchanged.  (b) N ≥ 1 back-to-back `ensureWarm()` calls starting from an
initialised, cold, no-in-flight state — the concurrent-callers scenario, no
completion interleaved — issue exactly one external ping and increment the
warmup counter exactly once. -/
theorem C4_warmup_dedup :
    (∀ (s : WarmupState) (h : Nat), s.clientConfigured = true →
      s.inFlight = some h → warmup s = (s, some h, false))
    ∧ (∀ (s : WarmupState) (now : Int) (n : Nat),
        s.clientConfigured = true → s.inFlight = none → isWarm s now = false →
        (ensureWarmN (n + 1) s now).2 = 1
        ∧ (ensureWarmN (n + 1) s now).1.warmupCount = s.warmupCount + 1) := by
  constructor
  · intro s h hc hin
    simp [warmup, hc, hin]
  · intro s now n hc hin hcold
    have hwu : warmup s = ((⟨s.clientConfigured, s.lastWarmupTime,
        s.warmupCount + 1, some (s.warmupCount + 1)⟩ : WarmupState),
        some (s.warmupCount + 1), true) := by
      simp [warmup, hc, hin]
    have hrest := ensureWarmN_inflight now n
      (⟨s.clientConfigured, s.lastWarmupTime, s.warmupCount + 1,
        some (s.warmupCount + 1)⟩ : WarmupState)
      (by simp [hc]) (by simp)
    constructor <;> simp [ensureWarmN, ensureWarm, hcold, hwu, hrest]

/-- Witness for C4 at concrete inputs: a call with warmup number 5 in flight
is deduplicated, and three back-to-back `ensureWarm()` calls from the cold
initial state ping exactly once. -/
theorem C4_witness :
    warmup ⟨true, 0, 5, some 5⟩ = (⟨true, 0, 5, some 5⟩, some 5, false)
    ∧ ((ensureWarmN 3 (initialWarmupState true) 1000).2 = 1
       ∧ (ensureWarmN 3 (initialWarmupState true) 1000).1.warmupCount
           = (initialWarmupState true).warmupCount + 1) :=
  ⟨C4_warmup_dedup.1 ⟨true, 0, 5, some 5⟩ 5 rfl rfl,
   C4_warmup_dedup.2 (initialWarmupState true) 1000 2 rfl rfl (by decide)⟩

/-- C5: element-cache round-trip and expiry.  For every (origin, hash) key:
`put` at time `tw` followed by `get` at a time strictly within the 3-day
retention window returns exactly the stored record and leaves the store
unchanged; a `get` past the retention window is a miss, and every later
`get` for that key on the resulting store is also a miss (the entry has
expired out of the backing store, so it is never served again). -/
theorem C5_cache_roundtrip_expiry (store : RedisStore) (url hash : String)
    (data : CachedElements) (tw tr : Int)
    (hts : data.timestamp = tw) :
    (tr - tw < CACHE_TTL_SECONDS * 1000 →
      getFromCache (saveToCache (some store) tw (getCacheKey url hash) data) tr
          (getCacheKey url hash)
        = (some data, saveToCache (some store) tw (getCacheKey url hash) data))
    ∧ (tr - tw > CACHE_TTL_SECONDS * 1000 →
      (getFromCache (saveToCache (some store) tw (getCacheKey url hash) data) tr
          (getCacheKey url hash)).1 = none
      ∧ ∀ tr2 : Int, tr ≤ tr2 →
          (getFromCache
            (getFromCache (saveToCache (some store) tw (getCacheKey url hash) data) tr
              (getCacheKey url hash)).2 tr2 (getCacheKey url hash)).1 = none) := by
  have hkey : ∀ (e : RedisEntry) (l : List (String × RedisEntry)),
      List.lookup (getCacheKey url hash) ((getCacheKey url hash, e) :: l) = some e := by
    intro e l
    simp [List.lookup]
  constructor
  · intro hwin
    have h1 : tr < tw + CACHE_TTL_SECONDS * 1000 := by linarith
    have h2 : ¬ (tr - data.timestamp > CACHE_TTL_SECONDS * 1000) := by
      rw [hts]; linarith
    simp [saveToCache, redisSetex, getFromCache, redisGet, hkey, h1, h2]
  · intro hpast
    have h1 : ¬ (tr < tw + CACHE_TTL_SECONDS * 1000) := by linarith
    refine ⟨?_, ?_⟩
    · simp [saveToCache, redisSetex, getFromCache, redisGet, hkey, h1]
    · intro tr2 h2
      have h3 : ¬ (tr2 < tw + CACHE_TTL_SECONDS * 1000) := by linarith
      simp [saveToCache, redisSetex, getFromCache, redisGet, hkey, h1, h3]

/-- Concrete cached record for the C5 witness. -/
def dataC5 : CachedElements := ⟨[], 100, none, "abcd", 1440, 900, none⟩

/-- Witness for C5 at concrete inputs: a hit 100 ms after the put, and a
miss one ms past the 3-day window. -/
theorem C5_witness :
    (getFromCache (saveToCache (some []) 100 (getCacheKey "https://example.com" "abcd")
        dataC5) 200 (getCacheKey "https://example.com" "abcd")).1 = some dataC5
    ∧ (getFromCache (saveToCache (some []) 100 (getCacheKey "https://example.com" "abcd")
        dataC5) (259200101 : Int) (getCacheKey "https://example.com" "abcd")).1 = none := by
  constructor
  · have h := (C5_cache_roundtrip_expiry [] "https://example.com" "abcd" dataC5
      100 200 rfl).1 (by norm_num [CACHE_TTL_SECONDS])
    rw [h]
  · exact ((C5_cache_roundtrip_expiry [] "https://example.com" "abcd" dataC5
      100 259200101 rfl).2 (by norm_num [CACHE_TTL_SECONDS])).1

theorem mem_insertByKey {α : Type} (key : α → ℚ) (x y : α) :
    ∀ (l : List α), y ∈ insertByKey key x l → y = x ∨ y ∈ l := by
  intro l
  induction l with
  | nil => intro h; simp [insertByKey] at h; exact Or.inl h
  | cons a rest ih =>
      intro h
      rw [insertByKey] at h
      by_cases hle : key x ≤ key a
      · rw [if_pos hle] at h
        rcases List.mem_cons.mp h with h1 | h1
        · exact Or.inl h1
        · exact Or.inr h1
      · rw [if_neg hle] at h
        rcases List.mem_cons.mp h with h1 | h1
        · exact Or.inr (by rw [h1]; exact List.mem_cons_self a rest)
        · rcases ih h1 with h2 | h2
          · exact Or.inl h2
          · exact Or.inr (List.mem_cons_of_mem a h2)

theorem mem_sortByKey {α : Type} (key : α → ℚ) (y : α) :
    ∀ (l : List α), y ∈ sortByKey key l → y ∈ l := by
  intro l
  induction l with
  | nil => intro h; simp [sortByKey] at h
  | cons a rest ih =>
      intro h
      rw [sortByKey] at h
      rcases mem_insertByKey key a y _ h with h1 | h1
      · rw [h1]; exact List.mem_cons_self a rest
      · exact List.mem_cons_of_mem a (ih h1)

/-- Any label the merge filter accepts for an icon is horizontally within 8%
of the icon's center. -/
theorem labelCandidate_dx (consumed : List Int) (iconCx iconBottom : ℚ)
    (t : ParsedElement) (h : labelCandidate consumed iconCx iconBottom t = true) :
    |centerX t - iconCx| ≤ 8 / 100 := by
  simp only [labelCandidate] at h
  split_ifs at h
  simp only [Bool.and_eq_true, decide_eq_true_eq] at h
  exact h.1.1

theorem enumFrom_ge {α : Type} : ∀ (l : List α) (n i : Nat) (a : α),
    (i, a) ∈ enumFrom n l → n ≤ i := by
  intro l
  induction l with
  | nil => intro n i a h; simp [enumFrom] at h
  | cons x xs ih =>
      intro n i a h
      rw [enumFrom] at h
      rcases List.mem_cons.mp h with h1 | h1
      · cases h1; exact Nat.le_refl n
      · exact Nat.le_of_succ_le (ih (n + 1) i a h1)

theorem enumFrom_functional {α : Type} : ∀ (l : List α) (n i : Nat) (a b : α),
    (i, a) ∈ enumFrom n l → (i, b) ∈ enumFrom n l → a = b := by
  intro l
  induction l with
  | nil => intro n i a b h; simp [enumFrom] at h
  | cons x xs ih =>
      intro n i a b ha hb
      rw [enumFrom] at ha hb
      rcases List.mem_cons.mp ha with h1 | h1 <;>
        rcases List.mem_cons.mp hb with h2 | h2
      · cases h1; cases h2; rfl
      · cases h1
        exact absurd (enumFrom_ge xs (n + 1) n b h2) (by omega)
      · cases h2
        exact absurd (enumFrom_ge xs (n + 1) n a h1) (by omega)
      · exact ih (n + 1) i a b h1 h2

theorem lookup_mem {α β : Type} [BEq α] [LawfulBEq α] :
    ∀ (l : List (α × β)) (i : α) (c : β), List.lookup i l = some c → (i, c) ∈ l := by
  intro l
  induction l with
  | nil => intro i c h; simp [List.lookup] at h
  | cons kv rest ih =>
      intro i c h
      rcases kv with ⟨k, v⟩
      rw [List.lookup] at h
      cases hik : (i == k) with
      | true =>
          simp only [hik] at h
          rw [Option.some_inj] at h
          have hik2 : i = k := eq_of_beq hik
          rw [hik2, ← h]
          exact List.mem_cons_self _ _
      | false =>
          simp only [hik] at h
          exact List.mem_cons_of_mem _ (ih i c h)

/-- Content updates collected by the merge loop come only from icons whose
own trimmed content is generic or shorter than 4 characters. -/
theorem iconMergeFold_updates (texts : List ParsedElement) :
    ∀ (icons : List (Nat × ParsedElement)) (consumed : List Int)
      (updates : List (Nat × String)) (i : Nat) (c : String),
    (i, c) ∈ (iconMergeFold texts icons consumed updates).1 →
    (i, c) ∈ updates
    ∨ ∃ p ∈ icons, p.1 = i
        ∧ (genericIconContentTest (trimStr p.2.content) = true
           ∨ (trimStr p.2.content).length < 4) := by
  intro icons
  induction icons with
  | nil => intro consumed updates i c h; exact Or.inl h
  | cons q rest ih =>
      intro consumed updates i c h
      rcases q with ⟨j, icon⟩
      rw [iconMergeFold] at h
      by_cases hskip : ¬ genericIconContentTest (trimStr icon.content)
          ∧ (trimStr icon.content).length ≥ 4
      · rw [if_pos hskip] at h
        rcases ih consumed updates i c h with h1 | ⟨p, hp, hpi, hel⟩
        · exact Or.inl h1
        · exact Or.inr ⟨p, List.mem_cons_of_mem _ hp, hpi, hel⟩
      · rw [if_neg hskip] at h
        have hel : genericIconContentTest (trimStr icon.content) = true
            ∨ (trimStr icon.content).length < 4 := by
          by_cases hg : genericIconContentTest (trimStr icon.content)
          · exact Or.inl hg
          · right
            by_contra hlen
            exact hskip ⟨hg, by omega⟩
        cases hb : bestLabelFor texts consumed icon with
        | none =>
            rw [hb] at h
            rcases ih consumed updates i c h with h1 | ⟨p, hp, hpi, hel2⟩
            · exact Or.inl h1
            · exact Or.inr ⟨p, List.mem_cons_of_mem _ hp, hpi, hel2⟩
        | some best =>
            rw [hb] at h
            rcases ih (best.id :: consumed) ((j, trimStr best.content) :: updates) i c h
              with h1 | ⟨p, hp, hpi, hel2⟩
            · rcases List.mem_cons.mp h1 with h2 | h2
              · have hij : i = j := congrArg Prod.fst h2
                have hcc : c = trimStr best.content := congrArg Prod.snd h2
                refine Or.inr ⟨(j, icon), List.mem_cons_self _ _, hij.symm, hel⟩
              · exact Or.inl h2
            · exact Or.inr ⟨p, List.mem_cons_of_mem _ hp, hpi, hel2⟩

/-- C6 (counterexample to C7): an icon whose own content is the specific
3-character label "Git" — not a member of the fixed generic list — still has
its content overwritten by the text label below it. -/
theorem C7_counterexample :
    genericIconContentTest "Git" = false
    ∧ mergeIconTextPairs
        [⟨1, .icon, ⟨0, 0, 0, 0⟩, ⟨2/5, 1/10, 23/50, 4/25⟩, true, "Git", 9/10⟩,
         ⟨2, .text, ⟨0, 0, 0, 0⟩, ⟨39/100, 17/100, 47/100, 19/100⟩, false,
           "Budget.xlsx", 9/10⟩] 1440 900
      = [⟨1, .icon, ⟨0, 0, 0, 0⟩, ⟨2/5, 1/10, 23/50, 4/25⟩, true,
          "Budget.xlsx", 9/10⟩] := by
  exact ⟨by decide, by with_unfolding_all rfl⟩

/-- C7 (amended): every element the merge pass outputs is an input element
with all fields unchanged except possibly `content`, and a content rewrite
happens only for an icon whose own trimmed content matches the fixed
generic/low-information list **or is shorter than 4 characters** (the source
also merges into icons with short non-generic content). -/
theorem C7_merge_rewrite_only_generic_or_short (elements : List ParsedElement)
    (w h : ℚ) :
    ∀ e' ∈ mergeIconTextPairs elements w h,
      ∃ e ∈ elements,
        e'.id = e.id ∧ e'.type = e.type ∧ e'.bbox = e.bbox
        ∧ e'.normalizedBbox = e.normalizedBbox
        ∧ e'.interactivity = e.interactivity
        ∧ e'.confidence = e.confidence
        ∧ (e'.content = e.content
           ∨ (e.type = ElemType.icon
              ∧ (genericIconContentTest (trimStr e.content) = true
                 ∨ (trimStr e.content).length < 4))) := by
  intro e' he'
  unfold mergeIconTextPairs at he'
  have hApp := (List.mem_filter.mp he').1
  unfold applyUpdates at hApp
  obtain ⟨⟨i, e⟩, hmem, heq⟩ := List.mem_map.mp hApp
  have hel : e ∈ elements := by
    have : ∀ (l : List ParsedElement) (n : Nat) (j : Nat) (a : ParsedElement),
        (j, a) ∈ enumFrom n l → a ∈ l := by
      intro l
      induction l with
      | nil => intro n j a hx; simp [enumFrom] at hx
      | cons x xs ih =>
          intro n j a hx
          rw [enumFrom] at hx
          rcases List.mem_cons.mp hx with h1 | h1
          · cases h1; exact List.mem_cons_self _ _
          · exact List.mem_cons_of_mem _ (ih (n + 1) j a h1)
    exact this elements 0 i e hmem
  cases hlk : List.lookup i (iconMergeFold
      (elements.filter (fun x => x.type = ElemType.text))
      ((enumFrom 0 elements).filter (fun p => p.2.type = ElemType.icon)) [] []).1 with
  | none =>
      rw [hlk] at heq
      simp only at heq
      exact ⟨e, hel, by rw [← heq], by rw [← heq], by rw [← heq], by rw [← heq],
        by rw [← heq], by rw [← heq], Or.inl (by rw [← heq])⟩
  | some c =>
      rw [hlk] at heq
      simp only at heq
      have hupd := lookup_mem _ i c hlk
      rcases iconMergeFold_updates _ _ _ _ i c hupd with h1 | ⟨p, hp, hpi, helig⟩
      · simp at h1
      · have hpicon := (List.mem_filter.mp hp).2
        have hpenum := (List.mem_filter.mp hp).1
        have hpe : p.2 = e := by
          have : (i, p.2) ∈ enumFrom 0 elements := by
            rcases p with ⟨pi, pe⟩
            cases hpi
            exact hpenum
          exact enumFrom_functional elements 0 i p.2 e this hmem
        refine ⟨e, hel, by rw [← heq], by rw [← heq], by rw [← heq], by rw [← heq],
          by rw [← heq], by rw [← heq], Or.inr ⟨?_, ?_⟩⟩
        · rw [← hpe]
          exact of_decide_eq_true hpicon
        · rw [← hpe]
          exact helig

/-- Witness for C7's amended theorem at a concrete input. -/
theorem C7_witness :
    ∃ e ∈ [(⟨1, .icon, ⟨0, 0, 0, 0⟩, ⟨2/5, 1/10, 23/50, 4/25⟩, true,
             "Git", 9/10⟩ : ParsedElement),
           ⟨2, .text, ⟨0, 0, 0, 0⟩, ⟨39/100, 17/100, 47/100, 19/100⟩, false,
             "Budget.xlsx", 9/10⟩],
      (⟨1, .icon, ⟨0, 0, 0, 0⟩, ⟨2/5, 1/10, 23/50, 4/25⟩, true,
        "Budget.xlsx", 9/10⟩ : ParsedElement).id = e.id
      ∧ (⟨1, .icon, ⟨0, 0, 0, 0⟩, ⟨2/5, 1/10, 23/50, 4/25⟩, true,
          "Budget.xlsx", 9/10⟩ : ParsedElement).type = e.type
      ∧ (⟨1, .icon, ⟨0, 0, 0, 0⟩, ⟨2/5, 1/10, 23/50, 4/25⟩, true,
          "Budget.xlsx", 9/10⟩ : ParsedElement).bbox = e.bbox
      ∧ (⟨1, .icon, ⟨0, 0, 0, 0⟩, ⟨2/5, 1/10, 23/50, 4/25⟩, true,
          "Budget.xlsx", 9/10⟩ : ParsedElement).normalizedBbox = e.normalizedBbox
      ∧ (⟨1, .icon, ⟨0, 0, 0, 0⟩, ⟨2/5, 1/10, 23/50, 4/25⟩, true,
          "Budget.xlsx", 9/10⟩ : ParsedElement).interactivity = e.interactivity
      ∧ (⟨1, .icon, ⟨0, 0, 0, 0⟩, ⟨2/5, 1/10, 23/50, 4/25⟩, true,
          "Budget.xlsx", 9/10⟩ : ParsedElement).confidence = e.confidence
      ∧ ((⟨1, .icon, ⟨0, 0, 0, 0⟩, ⟨2/5, 1/10, 23/50, 4/25⟩, true,
           "Budget.xlsx", 9/10⟩ : ParsedElement).content = e.content
         ∨ (e.type = ElemType.icon
            ∧ (genericIconContentTest (trimStr e.content) = true
               ∨ (trimStr e.content).length < 4))) :=
  C7_merge_rewrite_only_generic_or_short
    [⟨1, .icon, ⟨0, 0, 0, 0⟩, ⟨2/5, 1/10, 23/50, 4/25⟩, true, "Git", 9/10⟩,
     ⟨2, .text, ⟨0, 0, 0, 0⟩, ⟨39/100, 17/100, 47/100, 19/100⟩, false,
       "Budget.xlsx", 9/10⟩] 1440 900
    ⟨1, .icon, ⟨0, 0, 0, 0⟩, ⟨2/5, 1/10, 23/50, 4/25⟩, true, "Budget.xlsx", 9/10⟩
    (by
      rw [show mergeIconTextPairs
          [⟨1, .icon, ⟨0, 0, 0, 0⟩, ⟨2/5, 1/10, 23/50, 4/25⟩, true, "Git", 9/10⟩,
           ⟨2, .text, ⟨0, 0, 0, 0⟩, ⟨39/100, 17/100, 47/100, 19/100⟩, false,
             "Budget.xlsx", 9/10⟩] 1440 900
          = [⟨1, .icon, ⟨0, 0, 0, 0⟩, ⟨2/5, 1/10, 23/50, 4/25⟩, true,
              "Budget.xlsx", 9/10⟩] from by with_unfolding_all rfl]
      exact List.mem_cons_self _ _)

/-- C6: (a) on the spec's concrete instance — a generic-content icon at
normalized bbox (0.40, 0.10, 0.46, 0.16) and the label "Budget.xlsx" at
(0.39, 0.17, 0.47, 0.19) — the merged output is exactly one element carrying
content "Budget.xlsx", and the original label element (id 2) is gone;
(b) for every icon, a text label whose horizontal center is offset from the
icon's center by 20% of the image width is never selected as the icon's
merge label. -/
theorem C6_icon_label_merge :
    (mergeIconTextPairs
        [⟨1, .icon, ⟨0, 0, 0, 0⟩, ⟨2/5, 1/10, 23/50, 4/25⟩, true, "a folder.", 9/10⟩,
         ⟨2, .text, ⟨0, 0, 0, 0⟩, ⟨39/100, 17/100, 47/100, 19/100⟩, false,
           "Budget.xlsx", 9/10⟩] 1440 900
      = [⟨1, .icon, ⟨0, 0, 0, 0⟩, ⟨2/5, 1/10, 23/50, 4/25⟩, true,
          "Budget.xlsx", 9/10⟩])
    ∧ (∀ (texts : List ParsedElement) (consumed : List Int)
        (icon t : ParsedElement),
        |centerX t - centerX icon| = 1/5 →
        bestLabelFor texts consumed icon ≠ some t) := by
  constructor
  · with_unfolding_all rfl
  · intro texts consumed icon t hdx hcontra
    simp only [bestLabelFor] at hcontra
    have hmem : t ∈ sortByKey (fun s => |centerX s - centerX icon|)
        (texts.filter (labelCandidate consumed (centerX icon)
          icon.normalizedBbox.y2)) := by
      rcases hsl : sortByKey (fun s => |centerX s - centerX icon|)
          (texts.filter (labelCandidate consumed (centerX icon)
            icon.normalizedBbox.y2)) with - | ⟨a, rest⟩
      · rw [hsl] at hcontra
        exact absurd hcontra (by simp)
      · rw [hsl] at hcontra
        rw [List.head?_cons, Option.some_inj] at hcontra
        rw [hcontra]
        exact List.mem_cons_self _ _
    have hfil := mem_sortByKey _ t _ hmem
    have hcand := (List.mem_filter.mp hfil).2
    have hle := labelCandidate_dx consumed (centerX icon)
      icon.normalizedBbox.y2 t hcand
    rw [hdx] at hle
    norm_num at hle

/-- Witness for C6 at a concrete input: a label at horizontal offset exactly
20% of the image width is not merged. -/
theorem C6_witness :
    bestLabelFor
        [⟨2, .text, ⟨0, 0, 0, 0⟩, ⟨3/5, 17/100, 3/5, 19/100⟩, false,
          "Budget.xlsx", 9/10⟩] []
        ⟨1, .icon, ⟨0, 0, 0, 0⟩, ⟨2/5, 1/10, 2/5, 4/25⟩, true, "a folder.", 9/10⟩
      ≠ some ⟨2, .text, ⟨0, 0, 0, 0⟩, ⟨3/5, 17/100, 3/5, 19/100⟩, false,
          "Budget.xlsx", 9/10⟩ :=
  C6_icon_label_merge.2
    [⟨2, .text, ⟨0, 0, 0, 0⟩, ⟨3/5, 17/100, 3/5, 19/100⟩, false, "Budget.xlsx", 9/10⟩]
    []
    ⟨1, .icon, ⟨0, 0, 0, 0⟩, ⟨2/5, 1/10, 2/5, 4/25⟩, true, "a folder.", 9/10⟩
    ⟨2, .text, ⟨0, 0, 0, 0⟩, ⟨3/5, 17/100, 3/5, 19/100⟩, false, "Budget.xlsx", 9/10⟩
    (by norm_num [centerX])

theorem head_isSome_of_not_empty {α : Type} (l : List α) (h : l.isEmpty = false) :
    l.head?.isSome = true := by
  cases l with
  | nil => simp at h
  | cons a rest => rfl

/-- JS array subscripts at integral JS numbers agree with list lookup: the
`undefined` outcome of `candidates[elementIndex - 1]` needs a non-integral
(or negative) index. -/
theorem jsArrayGet_natCast {α : Type} (l : List α) (n : Nat) :
    jsArrayGet l (n : ℚ) = l.get? n := by
  unfold jsArrayGet
  rw [if_pos]
  · rw [Rat.num_natCast]
    simp
  · constructor
    · exact Rat.den_natCast n
    · rw [Rat.num_natCast]
      exact Int.ofNat_nonneg n

/-- `parseLLMResponse` either degrades to the first candidate, or returns
the JS subscript `candidates[elementIndex - 1]` for a validated numeric
index. -/
theorem parseLLMResponse_element (jsonParse : String → Except String LLMJsonResponse)
    (response : String) (candidates : List ParsedElement) :
    (parseLLMResponse jsonParse response candidates).element = candidates.head?
    ∨ ∃ (j : LLMJsonResponse) (idx conf : ℚ),
        jsonParse (stripFences response) = .ok j
        ∧ j.elementIndex = .num idx ∧ j.confidence = .num conf
        ∧ (parseLLMResponse jsonParse response candidates).element
            = jsArrayGet candidates (idx - 1) := by
  unfold parseLLMResponse
  cases hp : jsonParse (stripFences response) with
  | error e => left; rfl
  | ok j =>
      cases hidx : j.elementIndex with
      | notNum =>
          left
          simp only [hidx]
          rfl
      | num idx =>
          simp only [hidx]
          by_cases hr : idx < 1 ∨ idx > (candidates.length : ℚ)
          · left
            rw [if_pos hr]
            rfl
          · rw [if_neg hr]
            cases hconf : j.confidence with
            | notNum =>
                left
                simp only [hconf]
                rfl
            | num conf =>
                simp only [hconf]
                by_cases hcr : conf < 0 ∨ conf > 1
                · left
                  rw [if_pos hcr]
                  rfl
                · right
                  refine ⟨j, idx, conf, rfl, hidx, hconf, ?_⟩
                  rw [if_neg hcr]

/-- The concrete pre-filter used in the witnesses: the identity funnel. -/
def pfAll : PreFilter := fun _ avail _ => avail

def submitBtn : ParsedElement := ⟨1, .text, ⟨0, 0, 0, 0⟩, ⟨0, 0, 0, 0⟩, true, "Submit", 9/10⟩

def cancelBtn : ParsedElement := ⟨2, .text, ⟨0, 0, 0, 0⟩, ⟨0, 0, 0, 0⟩, false, "Cancel", 9/10⟩

/-- A dispatcher pick of candidate 2 at confidence 0.3 — below the 0.5
acceptance threshold. -/
def jsonLow : String → Except String LLMJsonResponse :=
  fun _ => .ok ⟨.num 2, .num (3/10), some "weak match"⟩

/-- C8 (code bug evaluation): with a dispatcher pick of candidate 2 at
confidence 0.3, the deliberate low-confidence `throw` inside `matchElement`
is swallowed by the same `try` block's `catch`, so the call does not fail:
it returns the *first* candidate at confidence exactly 0.5.
`matchElementWithRetry` therefore sees a non-null element, returns on
attempt 1, and its exclusion set stays the caller's (empty) — no rejected id
is ever excluded and no retry happens, contradicting the claimed
reject-and-retry-with-exclusions behaviour. -/
theorem C8_code_bug_eval :
    (parseLLMResponse jsonLow "resp" [submitBtn, cancelBtn]).element = some cancelBtn
    ∧ (parseLLMResponse jsonLow "resp" [submitBtn, cancelBtn]).confidence = 3/10
    ∧ (matchElement pfAll (.ok "resp") jsonLow "submit button"
        [submitBtn, cancelBtn] {}).element = some submitBtn
    ∧ (matchElement pfAll (.ok "resp") jsonLow "submit button"
        [submitBtn, cancelBtn] {}).confidence = 1/2
    ∧ (matchElementWithRetry pfAll (fun _ => .ok "resp") jsonLow "submit button"
        [submitBtn, cancelBtn] {}).element = some submitBtn
    ∧ (matchElementWithRetry pfAll (fun _ => .ok "resp") jsonLow "submit button"
        [submitBtn, cancelBtn] {}).attemptNumber = some 1
    ∧ (matchElementWithRetry pfAll (fun _ => .ok "resp") jsonLow "submit button"
        [submitBtn, cancelBtn] {}).excludedCount = some 0 := by
  refine ⟨?_, ?_, ?_, ?_, ?_, ?_, ?_⟩ <;> with_unfolding_all rfl

/-- A dispatcher response whose `elementIndex` is the legal JSON number 1.5:
it passes the numeric and range validation, but `candidates[0.5]` is
`undefined`. -/
def jsonHalfIdx : String → Except String LLMJsonResponse :=
  fun _ => .ok ⟨.num (3/2), .num (9/10), some "r"⟩

/-- C10 (counterexample): with two candidates and a response picking index
1.5 at confidence 0.9, validation passes (1 ≤ 1.5 ≤ 2, 0 ≤ 0.9 ≤ 1) but the
subscript `candidates[0.5]` is `undefined`, so `matchElement` returns a null
element even though the pre-filtered candidate set is non-empty. -/
theorem C10_counterexample :
    pfAll "x" [submitBtn, cancelBtn] {} ≠ []
    ∧ (matchElement pfAll (.ok "resp") jsonHalfIdx "x"
        [submitBtn, cancelBtn] {}).element = none := by
  constructor
  · intro h
    exact absurd h (by with_unfolding_all simp [pfAll])
  · with_unfolding_all rfl

/-- C10 (amended): for every pre-filter, dispatcher outcome and JSON parse,
when the pre-filtered candidate set is non-empty `matchElement` never
propagates an error and returns a non-null element — **unless** the parsed
response carries a validated numeric `elementIndex` whose JS subscript
`candidates[elementIndex - 1]` is `undefined` (a non-integral index; for
every integral index the subscript is a real candidate, see
`jsArrayGet_natCast`).  In particular every dispatcher failure degrades to
the first candidate at confidence exactly 0.5. -/
theorem C10_match_element_total (pf : PreFilter) (llm : Except String String)
    (jsonParse : String → Except String LLMJsonResponse) (description : String)
    (elements : List ParsedElement) (options : MatchOptions)
    (hel : elements.isEmpty = false)
    (havail : (if 0 < (options.excludedElementIds.getD []).length
        then elements.filter
          (fun e => ¬ (options.excludedElementIds.getD []).contains e.id)
        else elements).isEmpty = false)
    (hcand : (pf description
        (if 0 < (options.excludedElementIds.getD []).length
          then elements.filter
            (fun e => ¬ (options.excludedElementIds.getD []).contains e.id)
          else elements) options).isEmpty = false) :
    ((matchElement pf llm jsonParse description elements options).element.isSome = true
      ∨ ∃ (text : String) (j : LLMJsonResponse) (idx conf : ℚ),
          llm = .ok text
          ∧ jsonParse (stripFences text) = .ok j
          ∧ j.elementIndex = .num idx ∧ j.confidence = .num conf
          ∧ jsArrayGet (pf description
              (if 0 < (options.excludedElementIds.getD []).length
                then elements.filter
                  (fun e => ¬ (options.excludedElementIds.getD []).contains e.id)
                else elements) options) (idx - 1) = none)
    ∧ (∀ e, llm = .error e →
        matchElement pf llm jsonParse description elements options
          = { element := (pf description
                (if 0 < (options.excludedElementIds.getD []).length
                  then elements.filter
                    (fun e => ¬ (options.excludedElementIds.getD []).contains e.id)
                  else elements) options).head?,
              confidence := 1/2,
              reasoning := "LLM matching failed, using first candidate: " ++ e }) := by
  have h1 : ¬ (elements.isEmpty = true) := by rw [hel]; simp
  have h2 : ¬ ((if 0 < (options.excludedElementIds.getD []).length
      then elements.filter
        (fun e => ¬ (options.excludedElementIds.getD []).contains e.id)
      else elements).isEmpty = true) := by rw [havail]; simp
  have h3 : ¬ ((pf description
      (if 0 < (options.excludedElementIds.getD []).length
        then elements.filter
          (fun e => ¬ (options.excludedElementIds.getD []).contains e.id)
        else elements) options).isEmpty = true) := by rw [hcand]; simp
  have hred : matchElement pf llm jsonParse description elements options
      = (match llm with
         | .error e =>
             { element := (pf description
                 (if 0 < (options.excludedElementIds.getD []).length
                   then elements.filter
                     (fun e => ¬ (options.excludedElementIds.getD []).contains e.id)
                   else elements) options).head?,
               confidence := 1/2,
               reasoning := "LLM matching failed, using first candidate: " ++ e }
         | .ok text =>
             let result := parseLLMResponse jsonParse text (pf description
                 (if 0 < (options.excludedElementIds.getD []).length
                   then elements.filter
                     (fun e => ¬ (options.excludedElementIds.getD []).contains e.id)
                   else elements) options)
             if result.confidence < 1/2 then
               { element := (pf description
                   (if 0 < (options.excludedElementIds.getD []).length
                     then elements.filter
                       (fun e => ¬ (options.excludedElementIds.getD []).contains e.id)
                     else elements) options).head?,
                 confidence := 1/2,
                 reasoning := "LLM matching failed, using first candidate: " ++
                   (if options.windowBounds.isNone then
                     "Element matching failed: Low confidence - Frontend must send windowBounds in context."
                   else
                     "Element matching failed: Low confidence - No good match.") }
             else result) := by
    simp only [matchElement]
    rw [if_neg h1, if_neg h2, if_neg h3]
  constructor
  · cases llm with
    | error e =>
        left
        rw [hred]
        exact head_isSome_of_not_empty _ hcand
    | ok text =>
        rw [hred]
        simp only []
        by_cases hconf : (parseLLMResponse jsonParse text (pf description
            (if 0 < (options.excludedElementIds.getD []).length
              then elements.filter
                (fun e => ¬ (options.excludedElementIds.getD []).contains e.id)
              else elements) options)).confidence < 1/2
        · left
          rw [if_pos hconf]
          exact head_isSome_of_not_empty _ hcand
        · rw [if_neg hconf]
          rcases parseLLMResponse_element jsonParse text
              (pf description
                (if 0 < (options.excludedElementIds.getD []).length
                  then elements.filter
                    (fun e => ¬ (options.excludedElementIds.getD []).contains e.id)
                  else elements) options) with hhead | ⟨j, idx, conf, hp, hidx, hcf, hget⟩
          · left
            rw [hhead]
            exact head_isSome_of_not_empty _ hcand
          · cases hjs : jsArrayGet (pf description
                (if 0 < (options.excludedElementIds.getD []).length
                  then elements.filter
                    (fun e => ¬ (options.excludedElementIds.getD []).contains e.id)
                  else elements) options) (idx - 1) with
            | none =>
                right
                exact ⟨text, j, idx, conf, rfl, hp, hidx, hcf, hjs⟩
            | some picked =>
                left
                rw [hget, hjs]
                rfl
  · intro e hllm
    subst hllm
    rw [hred]

/-- Witness for C10's amended theorem at a concrete input: with candidates
present and the dispatcher throwing, matchElement still returns an element. -/
theorem C10_witness :
    ((matchElement pfAll (.error "boom") jsonLow "x"
        [submitBtn, cancelBtn] {}).element.isSome = true
      ∨ ∃ (text : String) (j : LLMJsonResponse) (idx conf : ℚ),
          (Except.error "boom" : Except String String) = .ok text
          ∧ jsonLow (stripFences text) = .ok j
          ∧ j.elementIndex = .num idx ∧ j.confidence = .num conf
          ∧ jsArrayGet (pfAll "x"
              (if 0 < (({} : MatchOptions).excludedElementIds.getD []).length
                then [submitBtn, cancelBtn].filter
                  (fun e => ¬ (({} : MatchOptions).excludedElementIds.getD []).contains e.id)
                else [submitBtn, cancelBtn]) {}) (idx - 1) = none)
    ∧ (∀ e, (Except.error "boom" : Except String String) = .error e →
        matchElement pfAll (.error "boom") jsonLow "x" [submitBtn, cancelBtn] {}
          = { element := (pfAll "x"
                (if 0 < (({} : MatchOptions).excludedElementIds.getD []).length
                  then [submitBtn, cancelBtn].filter
                    (fun e => ¬ (({} : MatchOptions).excludedElementIds.getD []).contains e.id)
                  else [submitBtn, cancelBtn]) {}).head?,
              confidence := 1/2,
              reasoning := "LLM matching failed, using first candidate: " ++ e }) :=
  C10_match_element_total pfAll (.error "boom") jsonLow "x" [submitBtn, cancelBtn] {}
    rfl rfl rfl

end Thinkdrop
